import Mathlib

/-!
# Verification of the infiAgent core against its specification

Shallow embedding, in Lean 4, of the parts of the `infiAgent` repository that
the verified claims talk about:

* `core/tool_executor.py`   — `ToolExecutor.execute` and its two dispatch
  helpers (`_call_toolserver`, `_execute_sub_agent`);
* `core/agent_executor.py`  — `AgentExecutor.run` (checkpoint re-entry,
  pending-tool recovery, the turn loop, no-tool backoff, periodic thinking,
  UUID augmentation) and `_save_state`;
* `core/context_builder.py` — `_build_agent_tree_json` and the tree-building
  part of `_build_structured_call_info`;
* `core/state_cleaner.py`   — `clean_before_start`;
* `utils/conversation_storage.py` — `save_actions` viewed as a trace of
  file-system operations.

Python dictionaries with string keys are modelled as association lists
(`List (String × String)` for tool arguments and result records), with the
first binding of a key the authoritative one, as in a Python `dict`.
External collaborators that are not part of the verified core (the LLM, the
tool server, the thinking agent, the action compressor, `uuid.uuid4`,
`md5`, `datetime.now`) are modelled as oracle parameters, so that every
definition stays executable and the embedded control flow is exactly the
source's.
-/

namespace InfiAgent

/-- Python `dict.get(k)`: the value of the first binding of `k`, if any. -/
def dictGet (d : List (String × String)) (k : String) : Option String :=
  (d.find? (fun p => p.1 = k)).map (·.2)

/-- Python `dict.get(k, dflt)`. -/
def dictGetD (d : List (String × String)) (k dflt : String) : String :=
  (dictGet d k).getD dflt

/-- Python `k in dict`. -/
def dictHas (d : List (String × String)) (k : String) : Bool :=
  (dictGet d k).isSome

/-- Python `d[k] = v` on a copy of `d`: replaces the value at the first
binding of `k` (keeping its position, as a Python `dict` update does), or
appends a new binding if the key is absent. -/
def dictSet : List (String × String) → String → String → List (String × String)
  | [], k, v => [(k, v)]
  | p :: rest, k, v => if p.1 = k then (k, v) :: rest else p :: dictSet rest k v

/-- Reading back the key just set. -/
theorem dictGet_dictSet (d : List (String × String)) (k v : String) :
    dictGet (dictSet d k v) k = some v := by
  induction d with
  | nil => simp [dictSet, dictGet, List.find?]
  | cons p rest ih =>
    by_cases hp : p.1 = k
    · simp [dictSet, hp, dictGet, List.find?]
    · simp only [dictSet, hp, if_false, ite_false]
      simpa [dictGet, List.find?, hp] using ih

/-! ## Tool Executor (`core/tool_executor.py`)

`ToolExecutor.execute` returns a Python dict; we keep the dict shape
(`List (String × String)`) so that "the result contains a `status` key" is a
statement about the value, not about a Lean record type.

Oracles:
* `getToolConfig` models `config_loader.get_tool_config`; `Except.error e`
  is the tool-config lookup raising an exception with text `e`
  (`config_loader` is not part of `src/`, so only its interface is modelled);
* `toolserver` models the whole `requests.post`/`raise_for_status`/`.json()`
  pipeline of `_call_toolserver`: `Except.error e` is any exception raised
  there (connection error, HTTP error status, JSON decode error), and a
  successful HTTP exchange yields the decoded `{success, data, error}`
  response body.  `data` is carried in already-serialized form, standing
  for `json.dumps(output_data, indent=2, ensure_ascii=False)`;
* `subAgentRun` models `AgentExecutor(...).run(task_id, task_input)` inside
  `_execute_sub_agent`: `Except.error e` is an exception escaping the
  recursive run (whose text the handler embeds in `error_information`
  together with the traceback, modelled as the plain text `e`). -/

/-- A tool configuration row, as used by `execute` and `_add_uuid_if_needed`:
`tool_config.get("type")` and `tool_config.get("level", 0)` folded into
fields (`type` is `none` when the key is absent). -/
structure ToolConfig where
  type : Option String
  level : Int
deriving Repr, DecidableEq

/-- Decoded body of a `POST /api/tool/execute` response, as read by
`_call_toolserver`: `success`, `data` (already serialized) and `error`. -/
structure ToolServerResponse where
  success : Bool
  data : String
  error : Option String
deriving Repr, DecidableEq

/-- The external collaborators of one `ToolExecutor.execute` call. -/
structure ToolEnv where
  getToolConfig : String → Except String ToolConfig
  toolserver : String → List (String × String) → Except String ToolServerResponse
  subAgentRun : String → String → Except String (List (String × String))

/-- `ToolExecutor._call_toolserver` (src/core/tool_executor.py:124-177):
build the request, send it, decode `success`/`data`/`error`; any exception
becomes `{status: error, error_information: "调用toolServer失败: " ++ e}`.
(`_ensure_task_exists` swallows its own exceptions and only touches the
task cache, so it has no effect on the returned record.) -/
def call_toolserver (env : ToolEnv) (tool_name : String)
    (arguments : List (String × String)) : List (String × String) :=
  match env.toolserver tool_name arguments with
  | Except.error e =>
      [("status", "error"), ("output", ""),
       ("error_information", "调用toolServer失败: " ++ e)]
  | Except.ok resp =>
      if resp.success then
        [("status", "success"), ("output", resp.data), ("error_information", "")]
      else
        [("status", "error"), ("output", ""),
         ("error_information", resp.error.getD "工具服务器返回未知错误")]

/-- `ToolExecutor._execute_sub_agent` (src/core/tool_executor.py:179-216):
run the sub-agent on `arguments.get("task_input", "")` and return its result;
any exception becomes `{status: error, error_information: "子Agent执行失败: " ++ e}`. -/
def execute_sub_agent (env : ToolEnv) (agent_name : String)
    (arguments : List (String × String)) : List (String × String) :=
  match env.subAgentRun agent_name (dictGetD arguments "task_input" "") with
  | Except.error e =>
      [("status", "error"), ("output", ""),
       ("error_information", "子Agent执行失败: " ++ e)]
  | Except.ok result => result

/-- `ToolExecutor.execute` (src/core/tool_executor.py:76-122): look up the
tool config, special-case `final_output`, dispatch on the config `type`;
the enclosing `try` turns any exception into
`{status: error, error_information: "工具执行失败: " ++ e}`. -/
def ToolExecutor.execute (env : ToolEnv) (tool_name : String)
    (arguments : List (String × String)) : List (String × String) :=
  match env.getToolConfig tool_name with
  | Except.error e =>
      [("status", "error"), ("output", ""),
       ("error_information", "工具执行失败: " ++ e)]
  | Except.ok tool_config =>
      if tool_name = "final_output" then
        [("status", dictGetD arguments "status" "success"),
         ("output", dictGetD arguments "output" ""),
         ("error_information", dictGetD arguments "error_information" "")]
      else if tool_config.type = some "tool_call_agent" then
        call_toolserver env tool_name arguments
      else if tool_config.type = some "llm_call_agent" then
        execute_sub_agent env tool_name arguments
      else
        [("status", "error"), ("output", ""),
         ("error_information",
          "不支持的工具类型: " ++ (tool_config.type.getD "None"))]

/-- C10 — `ToolExecutor.execute` is total at its interface: provided the
recursively invoked sub-agent's successful results themselves carry a
`status` key (the invariant the recursion maintains), every call returns a
dict containing a `status` key, and every internal exception — tool-config
lookup failure, unknown/unsupported tool type, tool-server failure, or a
crash inside a recursively invoked sub-agent — is caught and surfaced as a
`{status: error}` record whose `error_information` embeds the exception
text. -/
theorem C10_execute_total (env : ToolEnv) (tool_name : String)
    (arguments : List (String × String)) :
    ((∀ n t d, env.subAgentRun n t = Except.ok d → dictHas d "status" = true) →
      dictHas (ToolExecutor.execute env tool_name arguments) "status" = true) ∧
    (∀ e, env.getToolConfig tool_name = Except.error e →
      ToolExecutor.execute env tool_name arguments =
        [("status", "error"), ("output", ""),
         ("error_information", "工具执行失败: " ++ e)]) ∧
    (∀ cfg e, env.getToolConfig tool_name = Except.ok cfg →
      tool_name ≠ "final_output" → cfg.type = some "tool_call_agent" →
      env.toolserver tool_name arguments = Except.error e →
      ToolExecutor.execute env tool_name arguments =
        [("status", "error"), ("output", ""),
         ("error_information", "调用toolServer失败: " ++ e)]) ∧
    (∀ cfg e, env.getToolConfig tool_name = Except.ok cfg →
      tool_name ≠ "final_output" → cfg.type = some "llm_call_agent" →
      env.subAgentRun tool_name (dictGetD arguments "task_input" "") = Except.error e →
      ToolExecutor.execute env tool_name arguments =
        [("status", "error"), ("output", ""),
         ("error_information", "子Agent执行失败: " ++ e)]) ∧
    (∀ cfg, env.getToolConfig tool_name = Except.ok cfg →
      tool_name ≠ "final_output" →
      cfg.type ≠ some "tool_call_agent" → cfg.type ≠ some "llm_call_agent" →
      ToolExecutor.execute env tool_name arguments =
        [("status", "error"), ("output", ""),
         ("error_information", "不支持的工具类型: " ++ (cfg.type.getD "None"))]) := by
  refine ⟨?_, ?_, ?_, ?_, ?_⟩
  · intro hsub
    unfold ToolExecutor.execute
    cases hcfg : env.getToolConfig tool_name with
    | error e => simp [dictHas, dictGet]
    | ok cfg =>
      by_cases hfin : tool_name = "final_output"
      · simp [hfin, dictHas, dictGet]
      · by_cases htc : cfg.type = some "tool_call_agent"
        · simp only [hfin, htc, if_false, if_true, if_pos]
          unfold call_toolserver
          cases hts : env.toolserver tool_name arguments with
          | error e => simp [dictHas, dictGet]
          | ok resp =>
            by_cases hs : resp.success <;> simp [hs, dictHas, dictGet]
        · by_cases hllm : cfg.type = some "llm_call_agent"
          · simp only [hfin, htc, hllm, if_false, if_true, if_pos]
            unfold execute_sub_agent
            cases hrun : env.subAgentRun tool_name (dictGetD arguments "task_input" "") with
            | error e => simp [dictHas, dictGet]
            | ok d => exact hsub _ _ _ hrun
          · simp [hfin, htc, hllm, dictHas, dictGet]
  · intro e he
    unfold ToolExecutor.execute
    simp [he]
  · intro cfg e hcfg hfin htc hts
    unfold ToolExecutor.execute call_toolserver
    simp [hcfg, hfin, htc, hts]
  · intro cfg e hcfg hfin hllm hrun
    unfold ToolExecutor.execute execute_sub_agent
    by_cases htc : cfg.type = some "tool_call_agent"
    · rw [htc] at hllm; simp at hllm
    · simp [hcfg, hfin, htc, hllm, hrun]
  · intro cfg hcfg hfin htc hllm
    unfold ToolExecutor.execute
    simp [hcfg, hfin, htc, hllm]

/-- Concrete environment exercising every error path of
`ToolExecutor.execute` for the witness below. -/
def toolEnvWitness : ToolEnv where
  getToolConfig := fun name =>
    if name = "missing_tool" then Except.error "unknown tool"
    else if name = "ext_tool" then Except.ok ⟨some "tool_call_agent", 0⟩
    else if name = "sub_agent" then Except.ok ⟨some "llm_call_agent", 1⟩
    else Except.ok ⟨some "weird", 0⟩
  toolserver := fun _ _ => Except.error "connection refused"
  subAgentRun := fun _ _ => Except.error "sub-agent crashed"

/-- Witness for C10: the theorem evaluated on `toolEnvWitness`, with every
hypothesis discharged at concrete inputs. -/
theorem C10_execute_total_witness :
    dictHas (ToolExecutor.execute toolEnvWitness "ext_tool" []) "status" = true ∧
    ToolExecutor.execute toolEnvWitness "missing_tool" [] =
      [("status", "error"), ("output", ""),
       ("error_information", "工具执行失败: unknown tool")] ∧
    ToolExecutor.execute toolEnvWitness "ext_tool" [] =
      [("status", "error"), ("output", ""),
       ("error_information", "调用toolServer失败: connection refused")] ∧
    ToolExecutor.execute toolEnvWitness "sub_agent" [] =
      [("status", "error"), ("output", ""),
       ("error_information", "子Agent执行失败: sub-agent crashed")] ∧
    ToolExecutor.execute toolEnvWitness "odd_tool" [] =
      [("status", "error"), ("output", ""),
       ("error_information", "不支持的工具类型: weird")] := by
  refine ⟨?_, ?_, ?_, ?_, ?_⟩
  · exact (C10_execute_total toolEnvWitness "ext_tool" []).1
      (by intro n t d h; simp [toolEnvWitness] at h)
  · exact (C10_execute_total toolEnvWitness "missing_tool" []).2.1 "unknown tool" (by rfl)
  · exact (C10_execute_total toolEnvWitness "ext_tool" []).2.2.1
      ⟨some "tool_call_agent", 0⟩ "connection refused" (by rfl) (by decide) (by rfl) (by rfl)
  · exact (C10_execute_total toolEnvWitness "sub_agent" []).2.2.2.1
      ⟨some "llm_call_agent", 1⟩ "sub-agent crashed" (by rfl) (by decide) (by rfl) (by rfl)
  · exact (C10_execute_total toolEnvWitness "odd_tool" []).2.2.2.2
      ⟨some "weird", 0⟩ (by rfl) (by decide) (by decide) (by decide)

/-! ## Context Builder tree rendering (`core/context_builder.py`)

`_build_structured_call_info` renders the live call tree as JSON via the
recursive `_build_agent_tree_json`.  We embed the tree-building part (the
memoized-compression branches call the LLM and are outside the rendered-tree
claim).  A Python `dict` row of `agents_status` / `hierarchy` becomes an
association-list entry; `.get(key, default)` accesses are folded into the
field types (`final_output` / `latest_thinking` are `Option String` because
an absent key and an empty string behave differently in `state_cleaner.py`). -/

/-- Generic `dict.get` over an association list. -/
def assocGet {α : Type _} (d : List (String × α)) (k : String) : Option α :=
  (d.find? (fun p => p.1 = k)).map (·.2)

/-- One `agents_status` row. -/
structure AgentInfo where
  agent_name : String
  status : String
  latest_thinking : Option String
  final_output : Option String
  level : Int
deriving Repr, DecidableEq

/-- One `hierarchy` row: `{parent, children[]}`. -/
structure HierarchyInfo where
  parent : Option String
  children : List String
deriving Repr, DecidableEq

/-- A node of the JSON tree produced by `_build_agent_tree_json`: the
`final_output` / `thinking` keys are optional and the `children` key is
modelled as a possibly-empty list. -/
inductive TreeNode where
  | node (agent_id : String) (agent_name : String) (level : Int) (status : String)
      (is_current : Bool) (final_output : Option String) (thinking : Option String)
      (children : List TreeNode)
deriving Repr

/-- The 500-character truncation applied to `final_output` / `thinking`
strings in the rendered tree (src/core/context_builder.py:462,467). -/
def truncate500 (s : String) : String :=
  if s.length > 500 then s.take 500 ++ "..." else s

mutual

/-- `ContextBuilder._build_agent_tree_json` (src/core/context_builder.py:415-486):
recursive construction of one agent's JSON node, threading the shared
`visited` set (modelled as a list).  `fuel` only bounds the recursion depth;
the Python function terminates through `visited`, and any
`fuel > agents_status.length` reproduces it exactly. -/
def build_agent_tree_json (hierarchy : List (String × HierarchyInfo))
    (agents_status : List (String × AgentInfo)) (current_agent_id : String) :
    Nat → String → List String → Option TreeNode × List String
  | 0, _, visited => (none, visited)
  | fuel + 1, agent_id, visited =>
    if visited.contains agent_id then (none, visited)
    else
      let visited := agent_id :: visited
      match assocGet agents_status agent_id with
      | none => (none, visited)
      | some info =>
        if info.agent_name = "judge_agent" then (none, visited)
        else
          let children := ((assocGet hierarchy agent_id).map (·.children)).getD []
          let r := build_agent_tree_children hierarchy agents_status current_agent_id
              fuel children visited
          (some (TreeNode.node agent_id info.agent_name info.level info.status
              (agent_id = current_agent_id)
              (if info.status = "completed" then
                (if (info.final_output.getD "") = "" then none
                 else some (truncate500 (info.final_output.getD ""))) else none)
              (if info.status = "completed" then none
               else (if (info.latest_thinking.getD "") = "" then none
                     else some (truncate500 (info.latest_thinking.getD ""))))
              r.1),
           r.2)
termination_by fuel _ _ => (fuel, 0)

/-- The `for child_id in children` loop of `_build_agent_tree_json`
(src/core/context_builder.py:472-481): build each child with the shared
`visited`, dropping `None` results. -/
def build_agent_tree_children (hierarchy : List (String × HierarchyInfo))
    (agents_status : List (String × AgentInfo)) (current_agent_id : String) :
    Nat → List String → List String → List TreeNode × List String
  | _, [], visited => ([], visited)
  | fuel, child_id :: rest, visited =>
    let r1 := build_agent_tree_json hierarchy agents_status current_agent_id
        fuel child_id visited
    let r2 := build_agent_tree_children hierarchy agents_status current_agent_id
        fuel rest r1.2
    (match r1.1 with
     | none => r2.1
     | some n => n :: r2.1,
     r2.2)
termination_by fuel ids _ => (fuel, ids.length + 1)

end

/-- The tree-building portion of `ContextBuilder._build_structured_call_info`
(src/core/context_builder.py:318-338): root agents are the hierarchy rows
with `parent = None`; each root is rendered with the one `visited` set shared
across the whole traversal, and `None` results are dropped.  The fuel
`agents_status.length + 1` strictly exceeds the number of ids the traversal
can mark visited, so the bound is never hit. -/
def build_call_tree (hierarchy : List (String × HierarchyInfo))
    (agents_status : List (String × AgentInfo)) (current_agent_id : String) :
    List TreeNode :=
  let root_agents := (hierarchy.filter (fun p => p.2.parent = none)).map (·.1)
  (build_agent_tree_children hierarchy agents_status current_agent_id
    (agents_status.length + 1) root_agents []).1

mutual

/-- All agent names appearing in a rendered tree node (the node's own name
and every descendant's). -/
def TreeNode.allNames : TreeNode → List String
  | .node _ agent_name _ _ _ _ _ children => agent_name :: allNamesOfForest children

/-- All agent names appearing in a list of rendered tree nodes. -/
def allNamesOfForest : List TreeNode → List String
  | [] => []
  | n :: rest => n.allNames ++ allNamesOfForest rest

end

/-- A name occurring in a forest member's names occurs in the forest's names. -/
theorem names_subset_forest (x : String) :
    ∀ (forest : List TreeNode), ∀ n ∈ forest, x ∈ n.allNames →
      x ∈ allNamesOfForest forest := by
  intro forest
  induction forest with
  | nil => intro n hn; cases hn
  | cons m rest ih =>
    intro n hn hx
    rcases List.mem_cons.mp hn with h | h
    · subst h
      simp [allNamesOfForest, List.mem_append, hx]
    · simp [allNamesOfForest, List.mem_append, ih n h hx]

/-- A two-agent call tree whose root `a1` is a `judge_agent` with a non-judge
child `a2`. -/
def hierarchyJudgeRoot : List (String × HierarchyInfo) :=
  [("a1", ⟨none, ["a2"]⟩), ("a2", ⟨some "a1", []⟩)]

/-- Statuses for `hierarchyJudgeRoot`: `a1` is named `judge_agent`, its child
`a2` is a normal worker agent. -/
def statusJudgeRoot : List (String × AgentInfo) :=
  [("a1", ⟨"judge_agent", "running", some "scoring", none, 0⟩),
   ("a2", ⟨"worker_agent", "running", some "working", none, 1⟩)]

/-- C3 counterexample — the claim says the 结构化调用信息 tree rendering
still recurses into a `judge_agent`'s children, so a non-judge descendant of
a judge agent still appears.  On the concrete tree whose root `a1` is a
`judge_agent` with non-judge child `a2`, `_build_agent_tree_json` returns
`None` for the judge without visiting its children, so the rendered forest is
empty and `a2` appears nowhere. -/
theorem C3_counterexample :
    assocGet statusJudgeRoot "a1" =
      some ⟨"judge_agent", "running", some "scoring", none, 0⟩ ∧
    ((assocGet hierarchyJudgeRoot "a1").map (·.children)) = some ["a2"] ∧
    assocGet statusJudgeRoot "a2" =
      some ⟨"worker_agent", "running", some "working", none, 1⟩ ∧
    build_call_tree hierarchyJudgeRoot statusJudgeRoot "a2" = [] := by
  refine ⟨by rfl, by rfl, by rfl, ?_⟩
  simp [build_call_tree, hierarchyJudgeRoot, statusJudgeRoot,
    build_agent_tree_children, build_agent_tree_json, assocGet]

/-- Helper for C3: no node of a forest rendered by `_build_agent_tree_json`
is named `judge_agent`, jointly for the node and forest builders. -/
theorem build_tree_judge_free (hierarchy : List (String × HierarchyInfo))
    (agents_status : List (String × AgentInfo)) (current_agent_id : String) :
    ∀ fuel : Nat,
      (∀ agent_id visited n,
        (build_agent_tree_json hierarchy agents_status current_agent_id
            fuel agent_id visited).1 = some n →
        "judge_agent" ∉ n.allNames) ∧
      (∀ ids visited,
        "judge_agent" ∉ allNamesOfForest
          (build_agent_tree_children hierarchy agents_status current_agent_id
            fuel ids visited).1) := by
  intro fuel
  induction fuel with
  | zero =>
    constructor
    · intro agent_id visited n h
      simp [build_agent_tree_json] at h
    · intro ids
      induction ids with
      | nil => intro visited; simp [build_agent_tree_children, allNamesOfForest]
      | cons c rest ih =>
        intro visited
        simp only [build_agent_tree_children, build_agent_tree_json]
        exact ih _
  | succ f ihf =>
    have hbuild : ∀ agent_id visited n,
        (build_agent_tree_json hierarchy agents_status current_agent_id
            (f + 1) agent_id visited).1 = some n →
        "judge_agent" ∉ n.allNames := by
      intro agent_id visited n h
      by_cases hv : agent_id ∈ visited
      · rw [build_agent_tree_json] at h; simp [hv] at h
      · cases hst : assocGet agents_status agent_id with
        | none => rw [build_agent_tree_json] at h; simp [hv, hst] at h
        | some info =>
          by_cases hj : info.agent_name = "judge_agent"
          · rw [build_agent_tree_json] at h; simp [hv, hst, hj] at h
          · rw [build_agent_tree_json] at h
            rw [if_neg (by simpa using hv)] at h
            rw [hst] at h
            dsimp only at h
            rw [if_neg hj] at h
            dsimp only at h
            rw [Option.some_inj] at h
            subst h
            simp only [TreeNode.allNames, List.mem_cons, not_or]
            exact ⟨fun he => hj he.symm, ihf.2 _ _⟩
    exact ⟨hbuild, by
      intro ids
      induction ids with
      | nil => intro visited; simp [build_agent_tree_children, allNamesOfForest]
      | cons c rest ih =>
        intro visited
        simp only [build_agent_tree_children]
        cases hc : (build_agent_tree_json hierarchy agents_status current_agent_id
            (f + 1) c visited).1 with
        | none => simpa [hc] using ih _
        | some n =>
          simp only [hc, allNamesOfForest, List.mem_append]
          push_neg
          exact ⟨hbuild _ _ _ hc, ih _⟩⟩

/-- C3 (amended) — in the §structured_call_info tree rendering, a
`judge_agent` node is omitted **together with its whole subtree**: when the
traversal reaches an unvisited agent named `judge_agent`, it returns `None`
after marking only that agent visited (its children are not traversed), and
consequently no agent named `judge_agent` ever appears in a rendered call
tree. -/
theorem C3_judge_agent_pruned (hierarchy : List (String × HierarchyInfo))
    (agents_status : List (String × AgentInfo)) (current_agent_id : String)
    (fuel : Nat) (agent_id : String) (visited : List String) (info : AgentInfo)
    (hv : agent_id ∉ visited)
    (hst : assocGet agents_status agent_id = some info)
    (hj : info.agent_name = "judge_agent") :
    build_agent_tree_json hierarchy agents_status current_agent_id
        (fuel + 1) agent_id visited = (none, agent_id :: visited) ∧
    ∀ n ∈ build_call_tree hierarchy agents_status current_agent_id,
      "judge_agent" ∉ n.allNames := by
  constructor
  · rw [build_agent_tree_json]
    simp [hv, hst, hj]
  · intro n hn hmem
    have h := (build_tree_judge_free hierarchy agents_status current_agent_id
      (agents_status.length + 1)).2
      ((hierarchy.filter (fun p => p.2.parent = none)).map (·.1)) []
    exact h (names_subset_forest "judge_agent" _ n hn hmem)

/-- Witness for the amended C3, at the concrete judge-rooted tree. -/
theorem C3_judge_agent_pruned_witness :
    build_agent_tree_json hierarchyJudgeRoot statusJudgeRoot "a2" (2 + 1) "a1" []
        = (none, ["a1"]) ∧
    ∀ n ∈ build_call_tree hierarchyJudgeRoot statusJudgeRoot "a2",
      "judge_agent" ∉ n.allNames :=
  C3_judge_agent_pruned hierarchyJudgeRoot statusJudgeRoot "a2" 2 "a1" []
    ⟨"judge_agent", "running", some "scoring", none, 0⟩
    (by simp) (by rfl) (by rfl)

/-! ## State Cleaner (`core/state_cleaner.py`)

`clean_before_start(task_id, new_user_input)` loads the persisted Task
Context and stack through the hierarchy manager, reconciles them and saves
them back.  The load/save round-trip is modelled by passing the context and
stack in and returning the updated pair; the helper `let`-bindings of the
source are top-level definitions here so theorems can name them. -/

/-- One entry of `current.instructions`. -/
structure Instruction where
  instruction : String
  start_time : String
deriving Repr, DecidableEq

/-- The `current` part of the persisted Task Context.  The two memoized
compression caches (`_compressed_user_agent_history` and the
`_compressed_structured_call_info_<agent_id>` keys) live inside the same
Python dict as the regular fields; they are modelled as two fields. -/
structure TaskCurrent where
  instructions : List Instruction
  hierarchy : List (String × HierarchyInfo)
  agents_status : List (String × AgentInfo)
  start_time : String
  compressed_user_agent_history : Option String
  compressed_structured_call_info : List (String × String)
deriving Repr, DecidableEq

/-- One archived entry of `history[]`. -/
structure HistoryEntry where
  instructions : List Instruction
  start_time : String
  completion_time : String
  agents_status : List (String × AgentInfo)
  hierarchy : List (String × HierarchyInfo)
deriving Repr, DecidableEq

/-- The persisted Task Context (`<task>_context.json`): `current`,
`history[]`, and the `agent_time_history` end-time table consulted for the
archive entry's completion time. -/
structure TaskContext where
  current : TaskCurrent
  history : List HistoryEntry
  agent_time_history : List (String × String)
deriving Repr, DecidableEq

/-- `last_input == new_user_input` guarded by Python truthiness
(src/core/state_cleaner.py:48-55): the comparison only happens when the
instruction list is non-empty and the new input is neither `None` nor `""`. -/
def is_same_task_of (current : TaskCurrent) (new_user_input : Option String) : Bool :=
  match current.instructions.getLast?, new_user_input with
  | some last, some inp => if inp = "" then false else last.instruction = inp
  | _, _ => false

/-- The `completed_agents` classification (src/core/state_cleaner.py:63-69). -/
def completed_agents_of (current : TaskCurrent) : List (String × AgentInfo) :=
  current.agents_status.filter (fun p => p.2.status = "completed")

/-- The `running_agents` classification (src/core/state_cleaner.py:63-74):
every agent whose status is not `completed`. -/
def running_agents_of (current : TaskCurrent) : List (String × AgentInfo) :=
  current.agents_status.filter (fun p => ¬ p.2.status = "completed")

/-- `completed_hierarchy` after the children filter
(src/core/state_cleaner.py:66-83): hierarchy rows of completed agents with
their children lists restricted to completed agents. -/
def completed_hierarchy_of (current : TaskCurrent) : List (String × HierarchyInfo) :=
  let completed_ids := (completed_agents_of current).map (·.1)
  (completed_agents_of current).filterMap (fun p =>
    (assocGet current.hierarchy p.1).map (fun h =>
      (p.1, { h with children := h.children.filter (fun c => completed_ids.contains c) })))

/-- The `top_running` search (src/core/state_cleaner.py:87-93): the first
running agent (in `agents_status` order) whose hierarchy row has no parent
(or no hierarchy row at all, since `get(..., {}).get("parent")` is `None`
then too). -/
def top_running_of (current : TaskCurrent) : Option (String × AgentInfo) :=
  (running_agents_of current).find? (fun p =>
    ((assocGet current.hierarchy p.1).bind (·.parent)) = none)

/-- The synthesized `final_output` of the archived top running agent
(src/core/state_cleaner.py:98-118): the agent's `latest_thinking`
(defaulting to `"(无思考记录)"`) followed by the `final_output`s of the
completed agents whose (filtered) hierarchy parent is the agent. -/
def archived_output_of (current : TaskCurrent) (agent_id : String)
    (agent_info : AgentInfo) : String :=
  let thinking := agent_info.latest_thinking.getD "(无思考记录)"
  let children_outputs := (completed_agents_of current).filterMap (fun q =>
    match q.2.final_output with
    | some fo =>
        if ((assocGet (completed_hierarchy_of current) q.1).bind (·.parent))
              = some agent_id ∧ fo ≠ "" then
          some ("【" ++ q.2.agent_name ++ "】\n" ++ fo)
        else none
    | none => none)
  "【中断任务归档】\n\n" ++
    ("## 最新思考\n" ++ thinking ++ "\n\n" ++
      (if children_outputs = [] then "## 已完成的子任务\n(无)"
       else "## 已完成的子任务\n" ++ String.intercalate "\n\n" children_outputs))

/-- The archived agent row: status forced to `completed`, `final_output` set
to the synthesized text (src/core/state_cleaner.py:120-122). -/
def archived_info_of (current : TaskCurrent) (agent_id : String)
    (agent_info : AgentInfo) : AgentInfo :=
  { agent_info with
    status := "completed"
    final_output := some (archived_output_of current agent_id agent_info) }

/-- The `history_entry` moved into `history[]`
(src/core/state_cleaner.py:128-142): the current instructions and start
time, the completion time looked up in `agent_time_history`, and the agent
itself together with its completed direct children (rows whose
`completed_hierarchy` parent is the agent). -/
def archive_entry_of (context : TaskContext) (agent_id : String)
    (agent_info : AgentInfo) : HistoryEntry :=
  let current := context.current
  { instructions := current.instructions
    start_time := current.start_time
    completion_time := (assocGet context.agent_time_history agent_id).getD ""
    agents_status := (agent_id, archived_info_of current agent_id agent_info) ::
      (completed_agents_of current).filter (fun q =>
        ((assocGet (completed_hierarchy_of current) q.1).bind (·.parent))
          = some agent_id)
    hierarchy := (agent_id, (assocGet current.hierarchy agent_id).getD ⟨none, []⟩) ::
      (completed_hierarchy_of current).filter (fun q => q.2.parent = some agent_id) }

/-- `clean_before_start` (src/core/state_cleaner.py:19-185).  The persisted
context and stack are passed in and the updated pair is returned (the
source loads them from and saves them to the hierarchy manager, which is not
part of `src/`).  The early return on an empty `current.agents_status`
leaves both untouched; otherwise the stack is cleared and the context is
reconciled: on a changed input, the first parentless running agent (if any)
is archived to `history[]` and `current` is reset with both compression
caches deleted; on the same input, running agents are kept.  The children
filter on `completed_hierarchy` mutates the shared hierarchy rows in the
source, which the same-task branch therefore also observes. -/
def clean_before_start {σ : Type _} (context : TaskContext) (stack : List σ)
    (new_user_input : Option String) : TaskContext × List σ :=
  if context.current.agents_status = [] then (context, stack)
  else
    let current := context.current
    let is_same_task := is_same_task_of current new_user_input
    let completed_agents := completed_agents_of current
    let completed_ids := completed_agents.map (·.1)
    let running_count := (running_agents_of current).length
    let history' :=
      if 0 < running_count ∧ is_same_task = false then
        match top_running_of current with
        | some (agent_id, agent_info) =>
            context.history ++ [archive_entry_of context agent_id agent_info]
        | none => context.history
      else context.history
    let current' :=
      if is_same_task = false then
        { current with
          agents_status := []
          hierarchy := []
          instructions := []
          compressed_user_agent_history := none
          compressed_structured_call_info := [] }
      else
        { current with
          agents_status := completed_agents ++ running_agents_of current
          hierarchy := current.hierarchy.map (fun p =>
            if completed_ids.contains p.1 then
              (p.1, { p.2 with
                children := p.2.children.filter (fun c => completed_ids.contains c) })
            else p) }
    ({ context with current := current', history := history' }, [])

/-- A Task Context with two root-level running agents `r1` and `r2`
(both parentless, both not completed). -/
def ctxTwoRunningRoots : TaskContext :=
  { current :=
      { instructions := [⟨"T1", "2024-01-01T00:00:00"⟩]
        hierarchy := [("r1", ⟨none, []⟩), ("r2", ⟨none, []⟩)]
        agents_status :=
          [("r1", ⟨"alpha_agent", "running", some "r1 thinking", none, 0⟩),
           ("r2", ⟨"beta_agent", "running", some "r2 thinking", none, 0⟩)]
        start_time := "2024-01-01T00:00:00"
        compressed_user_agent_history := none
        compressed_structured_call_info := [] }
    history := []
    agent_time_history := [] }

/-- C9 counterexample — the claim says `clean_before_start` with a changed
input archives **each** root-level running agent.  With two root-level
running agents `r1`, `r2` and a new input `"T2" ≠ "T1"`, only the first
(`r1`) is synthesized a final output and moved to `history[]`; `r2` appears
in no history entry and is simply dropped when `current` is reset, never
marked completed. -/
theorem C9_counterexample :
    (clean_before_start ctxTwoRunningRoots ["frame"] (some "T2")).1.history.length
        = 1 ∧
    ((clean_before_start ctxTwoRunningRoots ["frame"] (some "T2")).1.history.map
        (fun e => assocGet e.agents_status "r2")) = [none] ∧
    ((clean_before_start ctxTwoRunningRoots ["frame"] (some "T2")).1.history.map
        (fun e => (assocGet e.agents_status "r1").map (·.status)))
        = [some "completed"] ∧
    (clean_before_start ctxTwoRunningRoots ["frame"] (some "T2")).1.current.agents_status
        = [] := by
  refine ⟨by rfl, by rfl, by rfl, by rfl⟩

/-- Splitting the `"【中断任务归档】"` marker off its following blank line. -/
theorem marker_append (t : String) :
    ∃ rest, "【中断任务归档】\n\n" ++ t = "【中断任务归档】" ++ rest :=
  ⟨"\n\n" ++ t, by
    rw [show ("【中断任务归档】\n\n" : String) = "【中断任务归档】" ++ "\n\n" from by rfl,
      String.append_assoc]⟩

/-- The synthesized archive output always begins with the
`"【中断任务归档】"` marker. -/
theorem archived_output_starts_with_marker (current : TaskCurrent)
    (agent_id : String) (agent_info : AgentInfo) :
    ∃ rest, archived_output_of current agent_id agent_info
      = "【中断任务归档】" ++ rest := by
  unfold archived_output_of
  exact marker_append _

/-- C9 (amended) — when `clean_before_start` runs with a non-empty
`current` and a `new_user_input` different from the last persisted
instruction, the **first** parentless running agent (in `agents_status`
order) — and only that one — is archived: it is marked completed with a
synthesized final output beginning `"【中断任务归档】"` that concatenates its
latest thinking with the final outputs of its completed direct children, and
one entry holding the current instructions plus that agent and its completed
direct children is appended to `history[]`; afterwards `current` is reset
(`agents_status`, `hierarchy`, `instructions` emptied), both compression
caches are deleted, the stack is cleared, and the other running agents are
dropped without being archived. -/
theorem C9_clean_new_task {σ : Type _} (ctx : TaskContext) (stack : List σ)
    (s : String) (aid : String) (info : AgentInfo)
    (hne : ctx.current.agents_status ≠ [])
    (hsame : is_same_task_of ctx.current (some s) = false)
    (htop : top_running_of ctx.current = some (aid, info)) :
    (clean_before_start ctx stack (some s)).2 = [] ∧
    (clean_before_start ctx stack (some s)).1.history =
      ctx.history ++ [archive_entry_of ctx aid info] ∧
    (archive_entry_of ctx aid info).agents_status =
      (aid, archived_info_of ctx.current aid info) ::
        (completed_agents_of ctx.current).filter (fun q =>
          ((assocGet (completed_hierarchy_of ctx.current) q.1).bind (·.parent))
            = some aid) ∧
    (archived_info_of ctx.current aid info).status = "completed" ∧
    (∃ rest, archived_output_of ctx.current aid info = "【中断任务归档】" ++ rest) ∧
    (archive_entry_of ctx aid info).instructions = ctx.current.instructions ∧
    (clean_before_start ctx stack (some s)).1.current.agents_status = [] ∧
    (clean_before_start ctx stack (some s)).1.current.hierarchy = [] ∧
    (clean_before_start ctx stack (some s)).1.current.instructions = [] ∧
    (clean_before_start ctx stack (some s)).1.current.compressed_user_agent_history
        = none ∧
    (clean_before_start ctx stack (some s)).1.current.compressed_structured_call_info
        = [] := by
  have hmem : (aid, info) ∈ running_agents_of ctx.current :=
    List.mem_of_find?_eq_some htop
  have hpos : 0 < (running_agents_of ctx.current).length :=
    List.length_pos.mpr (List.ne_nil_of_mem hmem)
  have hclean : clean_before_start ctx stack (some s) =
      ({ ctx with
          current := { ctx.current with
            agents_status := []
            hierarchy := []
            instructions := []
            compressed_user_agent_history := none
            compressed_structured_call_info := [] }
          history := ctx.history ++ [archive_entry_of ctx aid info] }, []) := by
    unfold clean_before_start
    rw [if_neg hne]
    simp [hsame, htop, hpos]
  exact ⟨by rw [hclean], by rw [hclean], by rfl, by rfl,
    archived_output_starts_with_marker ctx.current aid info, by rfl,
    by rw [hclean], by rw [hclean], by rw [hclean], by rw [hclean], by rw [hclean]⟩

/-- Witness for the amended C9, at the two-root context (`r1` is the first
parentless running agent). -/
theorem C9_clean_new_task_witness :
    (clean_before_start ctxTwoRunningRoots ["frame"] (some "T2")).2 = [] ∧
    (clean_before_start ctxTwoRunningRoots ["frame"] (some "T2")).1.history =
      ctxTwoRunningRoots.history ++
        [archive_entry_of ctxTwoRunningRoots "r1"
          ⟨"alpha_agent", "running", some "r1 thinking", none, 0⟩] ∧
    (archived_info_of ctxTwoRunningRoots.current "r1"
      ⟨"alpha_agent", "running", some "r1 thinking", none, 0⟩).status = "completed" ∧
    (clean_before_start ctxTwoRunningRoots ["frame"] (some "T2")).1.current.hierarchy
        = [] := by
  have h := C9_clean_new_task ctxTwoRunningRoots ["frame"] "T2" "r1"
    ⟨"alpha_agent", "running", some "r1 thinking", none, 0⟩
    (by decide) (by rfl) (by rfl)
  exact ⟨h.1, h.2.1, h.2.2.2.1, h.2.2.2.2.2.2.2.1⟩

/-! ## Conversation storage (`utils/conversation_storage.py`)

`ConversationStorage.save_actions` persists the per-agent actions
checkpoint.  To settle the atomicity claim, the body is embedded as the
trace of file-system operations it performs; the trace vocabulary includes
temp-write/rename and lock operations so that "atomic write-temp + rename,
serialized by file locks" is expressible about the trace. -/

/-- One executed tool call: `{tool_name, arguments, result}`
(src/core/agent_executor.py:277-281). -/
structure ActionRecord where
  tool_name : String
  arguments : List (String × String)
  result : List (String × String)
deriving Repr, DecidableEq

/-- One pending tool entry: `{id, name, arguments, status}`
(src/core/agent_executor.py:248-253). -/
structure PendingTool where
  id : String
  name : String
  arguments : List (String × String)
  status : String
deriving Repr, DecidableEq

/-- The JSON record written by `save_actions`
(src/utils/conversation_storage.py:60-74). -/
structure SavedActionsData where
  task_id : String
  agent_id : String
  agent_name : String
  task_input : String
  current_turn : Nat
  action_history : List ActionRecord
  action_history_fact : List ActionRecord
  pending_tools : List PendingTool
  latest_thinking : String
  first_thinking_done : Bool
  tool_call_counter : Nat
  system_prompt : String
  last_updated : String
deriving Repr, DecidableEq

/-- A file-system operation a save routine may perform. -/
inductive FsOp where
  | write (path : String) (data : SavedActionsData)
  | rename (src dst : String)
  | acquireLock (path : String)
  | releaseLock (path : String)
deriving Repr, DecidableEq

/-- `Path(task_id).name` as used by `_generate_filename`
(src/utils/conversation_storage.py:31) on a POSIX host: the component after
the last `/` when the id contains one, the id itself otherwise (a `\`-only
id passes the separator test but `Path(...).name` still returns it whole). -/
def task_folder_of (task_id : String) : String :=
  if task_id.contains '/' then (task_id.splitOn "/").getLastD task_id
  else task_id

/-- `ConversationStorage._generate_filename`
(src/utils/conversation_storage.py:23-34):
`<conversations_dir>/<md5(task_id)[:8]>_<task_folder>_<agent_id>_actions.json`.
The md5 digest is an oracle parameter. -/
def generate_filename (md5hex8 : String → String) (task_id agent_id : String) :
    String :=
  "~/mla_v3/conversations/" ++ md5hex8 task_id ++ "_" ++ task_folder_of task_id
    ++ "_" ++ agent_id ++ "_actions.json"

/-- `ConversationStorage.save_actions` (src/utils/conversation_storage.py:36-82)
as the trace of file-system operations it performs: a single direct
`open(filepath, "w")` + `json.dump` of the record, with the source's
falsy-defaulting of `action_history_fact` (replaced by `action_history`
when `None` or empty) and of `pending_tools` (replaced by `[]`).
`now` stands for `datetime.now().isoformat()`. -/
def save_actions_ops (md5hex8 : String → String) (now : String)
    (task_id agent_id agent_name task_input : String)
    (action_history : List ActionRecord) (current_turn : Nat)
    (latest_thinking : String) (first_thinking_done : Bool)
    (tool_call_counter : Nat) (system_prompt : String)
    (action_history_fact : Option (List ActionRecord))
    (pending_tools : Option (List PendingTool)) : List FsOp :=
  [FsOp.write (generate_filename md5hex8 task_id agent_id)
    { task_id := task_id
      agent_id := agent_id
      agent_name := agent_name
      task_input := task_input
      current_turn := current_turn
      action_history := action_history
      action_history_fact :=
        match action_history_fact with
        | some l => if l = [] then action_history else l
        | none => action_history
      pending_tools :=
        match pending_tools with
        | some l => l
        | none => []
      latest_thinking := latest_thinking
      first_thinking_done := first_thinking_done
      tool_call_counter := tool_call_counter
      system_prompt := system_prompt
      last_updated := now }]

/-- The lock operations of a trace stripped away. -/
def nonLockOps (ops : List FsOp) : List FsOp :=
  ops.filter (fun op =>
    match op with
    | FsOp.acquireLock _ => false
    | FsOp.releaseLock _ => false
    | _ => true)

/-- Modelled from the spec: "write(kind, key, record) atomically
(write-temp + rename)" — apart from lock operations, the trace is exactly a
write to a temporary file followed by a rename of that file onto the final
path. -/
def is_atomic_temp_rename_write (final_path : String) (ops : List FsOp) : Bool :=
  match nonLockOps ops with
  | [FsOp.write tmp _, FsOp.rename src dst] =>
      tmp == src && dst == final_path && tmp != final_path
  | _ => false

/-- Modelled from the spec: "all multi-writer access is serialized with
advisory file locks" — the trace acquires at least one lock. -/
def uses_file_lock (ops : List FsOp) : Bool :=
  ops.any (fun op =>
    match op with
    | FsOp.acquireLock _ => true
    | _ => false)

/-- C8 counterexample — the claim says every persisted-record write,
including the per-agent actions checkpoint, is written temp-file-then-rename
under an advisory file lock.  On a concrete checkpoint save, the trace of
`ConversationStorage.save_actions` is neither an atomic temp+rename write
nor lock-protected: it is one direct `open(filepath, "w")` write. -/
theorem C8_counterexample :
    is_atomic_temp_rename_write
        (generate_filename (fun _ => "abcd1234") "taskA" "agent_1")
        (save_actions_ops (fun _ => "abcd1234") "2024-01-01T00:00:00"
          "taskA" "agent_1" "alpha_agent" "do it" [] 0 "" false 0 ""
          (some []) (some [])) = false ∧
    uses_file_lock
        (save_actions_ops (fun _ => "abcd1234") "2024-01-01T00:00:00"
          "taskA" "agent_1" "alpha_agent" "do it" [] 0 "" false 0 ""
          (some []) (some [])) = false := by
  exact ⟨rfl, rfl⟩

/-- C8 (amended) — the per-agent actions checkpoint is persisted by a
single direct write to the final checkpoint path (no temporary file, no
rename, no lock operations); the written record carries the passed
histories, with `action_history_fact` falling back to `action_history` when
it is `None` or empty and `pending_tools` falling back to `[]` when `None`. -/
theorem C8_save_actions_direct_write (md5hex8 : String → String) (now : String)
    (task_id agent_id agent_name task_input : String)
    (action_history : List ActionRecord) (current_turn : Nat)
    (latest_thinking : String) (first_thinking_done : Bool)
    (tool_call_counter : Nat) (system_prompt : String)
    (action_history_fact : Option (List ActionRecord))
    (pending_tools : Option (List PendingTool)) :
    (∃ d : SavedActionsData,
      save_actions_ops md5hex8 now task_id agent_id agent_name task_input
          action_history current_turn latest_thinking first_thinking_done
          tool_call_counter system_prompt action_history_fact pending_tools
        = [FsOp.write (generate_filename md5hex8 task_id agent_id) d] ∧
      d.action_history = action_history ∧
      d.action_history_fact =
        (match action_history_fact with
         | some l => if l = [] then action_history else l
         | none => action_history) ∧
      d.pending_tools = pending_tools.getD []) ∧
    uses_file_lock
        (save_actions_ops md5hex8 now task_id agent_id agent_name task_input
          action_history current_turn latest_thinking first_thinking_done
          tool_call_counter system_prompt action_history_fact pending_tools)
      = false ∧
    is_atomic_temp_rename_write (generate_filename md5hex8 task_id agent_id)
        (save_actions_ops md5hex8 now task_id agent_id agent_name task_input
          action_history current_turn latest_thinking first_thinking_done
          tool_call_counter system_prompt action_history_fact pending_tools)
      = false := by
  refine ⟨⟨_, rfl, rfl, rfl, ?_⟩, rfl, rfl⟩
  cases pending_tools <;> rfl

/-! ## Agent Executor (`core/agent_executor.py`)

`AgentExecutor.run` drives the perceive–act loop.  The embedding keeps the
source's control flow step for step; the external collaborators are oracle
streams indexed by per-collaborator call counters carried in the state:

* `llm n` — the `n`-th `llm_client.chat` turn call made by `run`;
* `toolExec n name args` — the `n`-th `tool_executor.execute` call
  (`execute` never raises, see `ToolExecutor.execute` above);
* `thinking n` — the `n`-th `_trigger_thinking` result; the source catches
  every exception inside `_trigger_thinking` and returns `""`, so `""`
  doubles as the failure case;
* `uuidHex n` — the `n`-th `uuid.uuid4().hex[:8]` draw;
* `toolConfig name` — `config_loader.get_tool_config` as seen by
  `_add_uuid_if_needed` (`none` models the lookup raising, which that
  helper catches by returning the original arguments);
* `compress h` — `ActionCompressor.compress_if_needed` on the render
  history (the compressor lives outside `src/`; the executor only compares
  lengths and never lets it touch the fact history).

`_save_state` builds the full system prompt and forwards all fields to
`ConversationStorage.save_actions`; each call is recorded as a
`SavedSnapshot` holding the persisted fields relevant to the claims, with
the source's falsy fallback of `action_history_fact` applied and the
in-memory fact history kept verbatim in the model field `srcFact`.
`hierarchy_manager` calls (`push_agent`, `pop_agent`, `add_action`,
`update_thinking`) mutate a collaborator outside `src/` and are not part of
the executor state. -/

/-- One tool call parsed from the LLM response. -/
structure ToolCall where
  id : String
  name : String
  arguments : List (String × String)
deriving Repr, DecidableEq

/-- The LLM client's chat response as consumed by `run`. -/
structure LLMResponse where
  status : String
  output : String
  tool_calls : List ToolCall
  error_information : String
deriving Repr, DecidableEq

/-- The oracle streams standing for the executor's collaborators. -/
structure ExecEnv where
  llm : Nat → LLMResponse
  toolExec : Nat → String → List (String × String) → List (String × String)
  thinking : Nat → String
  uuidHex : Nat → String
  toolConfig : String → Option ToolConfig
  compress : List ActionRecord → List ActionRecord

/-- One persisted checkpoint, as written by `_save_state` /
`save_actions`: the `action_history_fact` field is the value actually
persisted (with the falsy fallback of
src/utils/conversation_storage.py:67 applied), while `srcFact` is model
bookkeeping recording the executor's in-memory fact history at save time. -/
structure SavedSnapshot where
  current_turn : Nat
  action_history : List ActionRecord
  action_history_fact : List ActionRecord
  pending_tools : List PendingTool
  latest_thinking : String
  first_thinking_done : Bool
  tool_call_counter : Nat
  srcFact : List ActionRecord
deriving Repr, DecidableEq

/-- The executor's mutable state: the `self.*` fields of `AgentExecutor`
(plus the local `max_tool_try` counter of `run`), the oracle call counters,
and the trace of persisted checkpoints. -/
structure ExecState where
  action_history : List ActionRecord
  action_history_fact : List ActionRecord
  pending_tools : List PendingTool
  latest_thinking : String
  first_thinking_done : Bool
  tool_call_counter : Nat
  max_tool_try : Nat
  llmCalls : Nat
  thinkCalls : Nat
  toolExecCalls : Nat
  uuidDraws : Nat
  saves : List SavedSnapshot
deriving Repr, DecidableEq

/-- `self.thinking_interval = 10` (src/core/agent_executor.py:84). -/
def thinking_interval : Nat := 10

/-- `self.max_turns = 10000000` (src/core/agent_executor.py:42). -/
def max_turns : Nat := 10000000

/-- The checkpoint record `_save_state` hands to `save_actions` from state
`st` at turn `turn`, with the storage layer's falsy fallback
(src/utils/conversation_storage.py:67) applied to `action_history_fact`. -/
def snapshot_of (st : ExecState) (turn : Nat) : SavedSnapshot :=
  { current_turn := turn
    action_history := st.action_history
    action_history_fact :=
      if st.action_history_fact = [] then st.action_history
      else st.action_history_fact
    pending_tools := st.pending_tools
    latest_thinking := st.latest_thinking
    first_thinking_done := st.first_thinking_done
    tool_call_counter := st.tool_call_counter
    srcFact := st.action_history_fact }

/-- `AgentExecutor._save_state` (src/core/agent_executor.py:510-542):
checkpoint every persisted field through `save_actions`, recording the
snapshot. -/
def save_state (st : ExecState) (turn : Nat) : ExecState :=
  { st with saves := st.saves ++ [snapshot_of st turn] }

@[simp] theorem save_state_fact (st : ExecState) (turn : Nat) :
    (save_state st turn).action_history_fact = st.action_history_fact := rfl

@[simp] theorem save_state_render (st : ExecState) (turn : Nat) :
    (save_state st turn).action_history = st.action_history := rfl

@[simp] theorem save_state_pending (st : ExecState) (turn : Nat) :
    (save_state st turn).pending_tools = st.pending_tools := rfl

@[simp] theorem save_state_saves (st : ExecState) (turn : Nat) :
    (save_state st turn).saves = st.saves ++ [snapshot_of st turn] := rfl

@[simp] theorem save_state_toolExecCalls (st : ExecState) (turn : Nat) :
    (save_state st turn).toolExecCalls = st.toolExecCalls := rfl

@[simp] theorem save_state_counter (st : ExecState) (turn : Nat) :
    (save_state st turn).tool_call_counter = st.tool_call_counter := rfl

@[simp] theorem save_state_thinkCalls (st : ExecState) (turn : Nat) :
    (save_state st turn).thinkCalls = st.thinkCalls := rfl

@[simp] theorem save_state_llmCalls (st : ExecState) (turn : Nat) :
    (save_state st turn).llmCalls = st.llmCalls := rfl

/-- The synthetic action appended on the `n`-th consecutive no-tool LLM
response (src/core/agent_executor.py:201-208). -/
def no_tool_record (n : Nat) : ActionRecord :=
  { tool_name := "_no_tool_call"
    arguments := []
    result := [("status", "error"),
      ("output", "第" ++ toString n ++ "次：LLM未调用工具，请在下一轮中必须调用工具")] }

/-- `AgentExecutor._add_uuid_if_needed` (src/core/agent_executor.py:346-379):
for an `llm_call_agent` tool with `level != 0` whose arguments contain
`task_input`, append ` [call-<hex8>]` to a copy of the arguments; any other
tool — or a config-lookup exception, modelled by `toolConfig = none` — passes
the arguments through unchanged.  Returns the (possibly augmented) arguments
and the state with the uuid draw consumed. -/
def add_uuid_if_needed (env : ExecEnv) (st : ExecState) (tool_name : String)
    (arguments : List (String × String)) : List (String × String) × ExecState :=
  match env.toolConfig tool_name with
  | none => (arguments, st)
  | some cfg =>
      if cfg.type = some "llm_call_agent" ∧ cfg.level ≠ 0 ∧
          dictHas arguments "task_input" = true then
        (dictSet arguments "task_input"
          (dictGetD arguments "task_input" "" ++
            (" [call-" ++ env.uuidHex st.uuidDraws ++ "]")),
         { st with uuidDraws := st.uuidDraws + 1 })
      else (arguments, st)

/-- `AgentExecutor._compress_action_history_if_needed`
(src/core/agent_executor.py:434-462) as seen from `run`: on a non-empty
render history, ask the compressor and adopt its output only when it is
strictly shorter; the fact history is not consulted.  (A compressor
exception is caught there, leaving the state unchanged — the oracle is
total, so that path is the `else` branch.) -/
def compress_step (env : ExecEnv) (st : ExecState) : ExecState :=
  if st.action_history = [] then st
  else
    let compressed := env.compress st.action_history
    if compressed.length < st.action_history.length then
      { st with action_history := compressed }
    else st

/-- Outcome of the inner `for tool_call in llm_response.tool_calls` loop. -/
inductive ToolLoopResult where
  | finished (st : ExecState)
  | final (result : List (String × String)) (st : ExecState)
deriving Repr

/-- The state carried by either tool-loop outcome. -/
def ToolLoopResult.state : ToolLoopResult → ExecState
  | .finished st => st
  | .final _ st => st

/-- The per-tool body of the turn loop (src/core/agent_executor.py:233-305):
augment the arguments, append to `pending_tools` and checkpoint, execute,
drop the pending entry, append the action record to fact and render
histories, checkpoint, bump `tool_call_counter`, and return the tool result
at once when the tool is `final_output`. -/
def tool_call_once (env : ExecEnv) (turn : Nat) (st : ExecState) (tc : ToolCall) :
    List (String × String) × ExecState :=
  let au := add_uuid_if_needed env st tc.name tc.arguments
  let args := au.1
  let st := au.2
  let st := { st with pending_tools :=
    st.pending_tools ++ [⟨tc.id, tc.name, args, "pending"⟩] }
  let st := save_state st turn
  let result := env.toolExec st.toolExecCalls tc.name args
  let st := { st with toolExecCalls := st.toolExecCalls + 1 }
  let st := { st with pending_tools :=
    st.pending_tools.filter (fun t => t.id ≠ tc.id) }
  let record : ActionRecord := ⟨tc.name, args, result⟩
  let st := { st with
    action_history_fact := st.action_history_fact ++ [record]
    action_history := st.action_history ++ [record] }
  let st := save_state st turn
  let st := { st with tool_call_counter := st.tool_call_counter + 1 }
  (result, st)

/-- The `for tool_call in llm_response.tool_calls` loop itself
(src/core/agent_executor.py:233-305): run each per-tool body in order,
short-circuiting with the tool result when the tool is `final_output`. -/
def exec_tool_calls (env : ExecEnv) (turn : Nat) :
    ExecState → List ToolCall → ToolLoopResult
  | st, [] => ToolLoopResult.finished st
  | st, tc :: rest =>
    let r := tool_call_once env turn st tc
    if tc.name = "final_output" then ToolLoopResult.final r.1 r.2
    else exec_tool_calls env turn r.2 rest

/-- The periodic re-plan after a turn's tool calls
(src/core/agent_executor.py:307-321): when `tool_call_counter` is a multiple
of `thinking_interval`, invoke the Thinking sub-service; only when its
result is non-empty, replace `latest_thinking`, checkpoint, and *then*
clear the render history.  The fact history is untouched either way. -/
def post_tools_thinking (env : ExecEnv) (turn : Nat) (st : ExecState) : ExecState :=
  if st.tool_call_counter % thinking_interval = 0 then
    let tres := env.thinking st.thinkCalls
    let st := { st with thinkCalls := st.thinkCalls + 1 }
    if tres ≠ "" then
      let st := { st with latest_thinking := tres }
      let st := save_state st turn
      { st with action_history := [] }
    else st
  else st

/-- Outcome of one iteration of the turn loop. -/
inductive TurnResult where
  | done (result : List (String × String)) (st : ExecState)
  | next (st : ExecState)
deriving Repr

/-- The state carried by either turn outcome. -/
def TurnResult.state : TurnResult → ExecState
  | .done _ st => st
  | .next st => st

/-- One iteration of the turn loop (src/core/agent_executor.py:147-321):
checkpoint, compress the render history if needed, build the context and
call the LLM; on an LLM failure return an error result; on a no-tool
response either append a synthetic `_no_tool_call` record and retry (fewer
than 5 consecutive misses so far) or, on the 6th consecutive miss, trigger a
Thinking re-plan and fail the agent; otherwise reset the miss counter,
execute the tool calls, and run the periodic re-plan check. -/
def turn_step (env : ExecEnv) (turn : Nat) (st : ExecState) : TurnResult :=
  let st := save_state st turn
  let st := compress_step env st
  let resp := env.llm st.llmCalls
  let st := { st with llmCalls := st.llmCalls + 1 }
  if resp.status ≠ "success" then
    TurnResult.done
      [("status", "error"), ("output", "LLM调用失败"),
       ("error_information", resp.error_information)] st
  else if resp.tool_calls = [] then
    if st.max_tool_try < 5 then
      let st := { st with max_tool_try := st.max_tool_try + 1 }
      let st := { st with action_history :=
        st.action_history ++ [no_tool_record st.max_tool_try] }
      let st := save_state st turn
      TurnResult.next st
    else
      let tres := env.thinking st.thinkCalls
      let st := { st with thinkCalls := st.thinkCalls + 1 }
      TurnResult.done
        [("status", "error"),
         ("output", if tres ≠ "" then tres else "多次未调用工具"),
         ("error_information", "Agent拒绝调用工具")] st
  else
    let st := { st with max_tool_try := 0 }
    match exec_tool_calls env turn st resp.tool_calls with
    | ToolLoopResult.final result st => TurnResult.done result st
    | ToolLoopResult.finished st => TurnResult.next (post_tools_thinking env turn st)

/-- The `for turn in range(start_turn, self.max_turns)` loop
(src/core/agent_executor.py:147-344), with the remaining number of turns as
fuel; an exhausted range yields the max-turns timeout result. -/
def run_loop (env : ExecEnv) : Nat → Nat → ExecState → List (String × String) × ExecState
  | 0, _, st =>
      ([("status", "error"), ("output", "执行超过最大轮次限制"),
        ("error_information", "Max turns " ++ toString max_turns ++ " exceeded")], st)
  | fuel + 1, turn, st =>
      match turn_step env turn st with
      | TurnResult.done result st => (result, st)
      | TurnResult.next st => run_loop env fuel (turn + 1) st

/-- `AgentExecutor._recover_pending_tools` (src/core/agent_executor.py:464-508):
iterate over a copy of `pending_tools`; re-execute each tool, append the
action record to fact and render histories, remove the entry from the live
pending list, and return the tool result at once when the tool is
`final_output` (leaving any later pending entries both unexecuted and still
pending); when the loop completes, clear the pending list.  Exceptions per
tool are printed and skipped; the oracles are total, so that path is empty. -/
def recover_pending_tools (env : ExecEnv) :
    ExecState → List PendingTool → Option (List (String × String)) × ExecState
  | st, [] => (none, { st with pending_tools := [] })
  | st, pt :: rest =>
      let result := env.toolExec st.toolExecCalls pt.name pt.arguments
      let st := { st with toolExecCalls := st.toolExecCalls + 1 }
      let record : ActionRecord := ⟨pt.name, pt.arguments, result⟩
      let st := { st with
        action_history_fact := st.action_history_fact ++ [record]
        action_history := st.action_history ++ [record] }
      let st := { st with pending_tools := st.pending_tools.erase pt }
      if pt.name = "final_output" then (some result, st)
      else recover_pending_tools env st rest

/-- The checkpoint record as loaded by `load_actions` on entry to `run`
(src/core/agent_executor.py:101-110). -/
structure LoadedActions where
  action_history : List ActionRecord
  action_history_fact : List ActionRecord
  pending_tools : List PendingTool
  latest_thinking : String
  first_thinking_done : Bool
  tool_call_counter : Nat
  current_turn : Nat
deriving Repr, DecidableEq

/-- The executor state restored from a loaded checkpoint
(src/core/agent_executor.py:103-110); counters and the save trace start
fresh for the new `run` invocation, and `max_tool_try` is a local of `run`
initialized to 0. -/
def state_from_loaded (data : LoadedActions) : ExecState :=
  { action_history := data.action_history
    action_history_fact := data.action_history_fact
    pending_tools := data.pending_tools
    latest_thinking := data.latest_thinking
    first_thinking_done := data.first_thinking_done
    tool_call_counter := data.tool_call_counter
    max_tool_try := 0
    llmCalls := 0
    thinkCalls := 0
    toolExecCalls := 0
    uuidDraws := 0
    saves := [] }

/-- The fresh executor state when no checkpoint exists
(src/core/agent_executor.py:77-85). -/
def fresh_state : ExecState :=
  { action_history := []
    action_history_fact := []
    pending_tools := []
    latest_thinking := ""
    first_thinking_done := false
    tool_call_counter := 0
    max_tool_try := 0
    llmCalls := 0
    thinkCalls := 0
    toolExecCalls := 0
    uuidDraws := 0
    saves := [] }

/-- The initial-planning block (src/core/agent_executor.py:128-141), reached
only when `start_turn == 0`: trigger the first Thinking call and, when it
returns a non-empty plan, store it, set `first_thinking_done` and
checkpoint at turn 0. -/
def initial_thinking (env : ExecEnv) (st : ExecState) : ExecState :=
  if st.first_thinking_done = false then
    let tres := env.thinking st.thinkCalls
    let st := { st with thinkCalls := st.thinkCalls + 1 }
    if tres ≠ "" then
      let st := { st with latest_thinking := tres, first_thinking_done := true }
      save_state st 0
    else st
  else st

/-- `AgentExecutor.run` (src/core/agent_executor.py:87-344).  With a loaded
checkpoint: if the fact history already holds a `final_output` action,
return its recorded result at once; otherwise recover any pending tools —
the recovery result is **discarded** by the caller (line 125) — and resume
the turn loop at `current_turn + 1` (so the initial-planning block, guarded
by `start_turn == 0`, is skipped).  Without a checkpoint: run the initial
planning and start the loop at turn 0. -/
def run (env : ExecEnv) (loaded : Option LoadedActions) :
    List (String × String) × ExecState :=
  match loaded with
  | none =>
      run_loop env max_turns 0 (initial_thinking env fresh_state)
  | some data =>
      let st := state_from_loaded data
      match data.action_history_fact.find? (fun a => a.tool_name = "final_output") with
      | some action => (action.result, st)
      | none =>
          let st :=
            if st.pending_tools ≠ [] then
              (recover_pending_tools env st st.pending_tools).2
            else st
          run_loop env (max_turns - (data.current_turn + 1)) (data.current_turn + 1) st

/-- C1 — if the loaded fact history already contains a `final_output`
action, `run` returns that (first such) action's recorded result
immediately: no LLM chat call, no Thinking call, no tool execution, no new
action records in either history, and no checkpoint write. -/
theorem C1_idempotent_reentry (env : ExecEnv) (data : LoadedActions)
    (action : ActionRecord)
    (h : data.action_history_fact.find? (fun a => a.tool_name = "final_output")
      = some action) :
    (run env (some data)).1 = action.result ∧
    (run env (some data)).2.llmCalls = 0 ∧
    (run env (some data)).2.thinkCalls = 0 ∧
    (run env (some data)).2.toolExecCalls = 0 ∧
    (run env (some data)).2.action_history_fact = data.action_history_fact ∧
    (run env (some data)).2.action_history = data.action_history ∧
    (run env (some data)).2.saves = [] := by
  have hrun : run env (some data) = (action.result, state_from_loaded data) := by
    simp only [run, h]
  exact ⟨by rw [hrun], by rw [hrun]; rfl, by rw [hrun]; rfl, by rw [hrun]; rfl,
    by rw [hrun]; rfl, by rw [hrun]; rfl, by rw [hrun]; rfl⟩

/-- An environment whose oracles are all inert, for witnesses. -/
def envIdle : ExecEnv :=
  { llm := fun _ => ⟨"success", "", [], ""⟩
    toolExec := fun _ _ _ =>
      [("status", "success"), ("output", ""), ("error_information", "")]
    thinking := fun _ => "plan"
    uuidHex := fun _ => "0123abcd"
    toolConfig := fun _ => none
    compress := fun h => h }

/-- A completed agent's terminal `final_output` action record. -/
def finalRecDone : ActionRecord :=
  ⟨"final_output", [("output", "done")],
   [("status", "success"), ("output", "done"), ("error_information", "")]⟩

/-- A loaded checkpoint of a completed agent: its fact history ends in
`finalRecDone`. -/
def loadedDone : LoadedActions :=
  ⟨[finalRecDone], [finalRecDone], [], "plan", true, 1, 3⟩

/-- Witness for C1 at a concrete completed checkpoint. -/
theorem C1_idempotent_reentry_witness :
    (run envIdle (some loadedDone)).1 = finalRecDone.result ∧
    (run envIdle (some loadedDone)).2.llmCalls = 0 ∧
    (run envIdle (some loadedDone)).2.thinkCalls = 0 ∧
    (run envIdle (some loadedDone)).2.toolExecCalls = 0 ∧
    (run envIdle (some loadedDone)).2.action_history_fact
        = loadedDone.action_history_fact ∧
    (run envIdle (some loadedDone)).2.action_history = loadedDone.action_history ∧
    (run envIdle (some loadedDone)).2.saves = [] :=
  C1_idempotent_reentry envIdle loadedDone finalRecDone (by rfl)

/-- The tool result the tool executor produces when re-executing the
recovered pending `final_output` below. -/
def recoveredFinalResult : List (String × String) :=
  [("status", "success"), ("output", "DONE"), ("error_information", "")]

/-- A checkpoint of an agent that crashed right after saving a
`final_output` pending tool and before persisting its result. -/
def loadedPendingFinal : LoadedActions :=
  { action_history := []
    action_history_fact := []
    pending_tools :=
      [⟨"call_1", "final_output", [("output", "DONE"), ("status", "success")], "pending"⟩]
    latest_thinking := "plan"
    first_thinking_done := true
    tool_call_counter := 0
    current_turn := 0 }

/-- Environment for the C2 failing input: the tool executor answers the
recovered `final_output` with `recoveredFinalResult` (call 0) and any later
call with a distinguishable `FROM_LLM` result; the LLM, if consulted, asks
for `final_output` with output `FROM_LLM`. -/
def envPendingFinal : ExecEnv :=
  { llm := fun _ =>
      ⟨"success", "",
       [⟨"call_2", "final_output", [("output", "FROM_LLM"), ("status", "success")]⟩],
       ""⟩
    toolExec := fun n _ _ =>
      if n = 0 then recoveredFinalResult
      else [("status", "success"), ("output", "FROM_LLM"), ("error_information", "")]
    thinking := fun _ => "plan"
    uuidHex := fun _ => "0123abcd"
    toolConfig := fun name =>
      if name = "final_output" then some ⟨some "final_output", 0⟩ else none
    compress := fun h => h }

/-- C2 — the claim (and the spec) say a recovered pending `final_output`
terminates `run` immediately with that tool's result and no LLM call.  On
the failing input `loadedPendingFinal`, `_recover_pending_tools` does
compute and return the recovered result (`recoveredFinalResult`), but
`run` discards the helper's return value (src/core/agent_executor.py:125),
falls through into the turn loop, makes an LLM call, and returns the result
of a *fresh* `final_output` execution instead of the recovered one. -/
theorem C2_pending_final_output_discarded :
    (recover_pending_tools envPendingFinal
        (state_from_loaded loadedPendingFinal)
        loadedPendingFinal.pending_tools).1 = some recoveredFinalResult ∧
    (run envPendingFinal (some loadedPendingFinal)).2.llmCalls = 1 ∧
    (run envPendingFinal (some loadedPendingFinal)).1
      = [("status", "success"), ("output", "FROM_LLM"), ("error_information", "")] ∧
    (run envPendingFinal (some loadedPendingFinal)).1 ≠ recoveredFinalResult := by
  refine ⟨by rfl, by rfl, by rfl, by decide⟩

/-- Two ` [call-<hex8>]` augmentations of the same input coincide only if
the hex draws coincide. -/
theorem uuid_suffix_injective (t s₁ s₂ : String)
    (h : t ++ (" [call-" ++ s₁ ++ "]") = t ++ (" [call-" ++ s₂ ++ "]")) :
    s₁ = s₂ := by
  have hd := congrArg String.data h
  simp only [String.data_append, List.append_assoc] at hd
  have h1 := List.append_cancel_left hd
  have h2 := List.append_cancel_left h1
  have h3 := List.append_cancel_right h2
  cases s₁; cases s₂
  exact congrArg String.mk h3

/-- C7 — for a tool whose config is `llm_call_agent` with `level ≠ 0` and
whose arguments contain `task_input`, the executor appends ` [call-<hex8>]`
to `task_input` before the call is saved to `pending_tools` and before it is
executed: the per-tool body persists the augmented arguments in the pending
checkpoint, executes the tool on them, and records them in the fact history;
two invocations drawing different hex suffixes produce different augmented
`task_input` values; and a call with `level = 0`, a non-`llm_call_agent`
type, or no `task_input` argument passes through unchanged. -/
theorem C7_uuid_augmentation (env : ExecEnv) (st : ExecState) (turn : Nat)
    (tc : ToolCall) (cfg : ToolConfig) (t : String)
    (hcfg : env.toolConfig tc.name = some cfg)
    (hty : cfg.type = some "llm_call_agent") (hlv : cfg.level ≠ 0)
    (ht : dictGet tc.arguments "task_input" = some t) :
    (add_uuid_if_needed env st tc.name tc.arguments).1
      = dictSet tc.arguments "task_input"
          (t ++ (" [call-" ++ env.uuidHex st.uuidDraws ++ "]")) ∧
    dictGet (add_uuid_if_needed env st tc.name tc.arguments).1 "task_input"
      = some (t ++ (" [call-" ++ env.uuidHex st.uuidDraws ++ "]")) ∧
    (tool_call_once env turn st tc).1
      = env.toolExec st.toolExecCalls tc.name
          (add_uuid_if_needed env st tc.name tc.arguments).1 ∧
    (tool_call_once env turn st tc).2.action_history_fact
      = st.action_history_fact ++
        [⟨tc.name, (add_uuid_if_needed env st tc.name tc.arguments).1,
          env.toolExec st.toolExecCalls tc.name
            (add_uuid_if_needed env st tc.name tc.arguments).1⟩] ∧
    ((tool_call_once env turn st tc).2.saves.map (fun s => s.pending_tools)
      = st.saves.map (fun s => s.pending_tools) ++
        [st.pending_tools ++
          [(⟨tc.id, tc.name, (add_uuid_if_needed env st tc.name tc.arguments).1,
            "pending"⟩ : PendingTool)],
         (st.pending_tools ++
          [(⟨tc.id, tc.name, (add_uuid_if_needed env st tc.name tc.arguments).1,
            "pending"⟩ : PendingTool)]).filter (fun x => x.id ≠ tc.id)]) ∧
    (∀ st₂ : ExecState, env.uuidHex st.uuidDraws ≠ env.uuidHex st₂.uuidDraws →
      dictGet (add_uuid_if_needed env st tc.name tc.arguments).1 "task_input"
        ≠ dictGet (add_uuid_if_needed env st₂ tc.name tc.arguments).1 "task_input") ∧
    (∀ (name : String) (args : List (String × String)) (cfg' : ToolConfig),
      env.toolConfig name = some cfg' → cfg'.level = 0 →
      (add_uuid_if_needed env st name args).1 = args) ∧
    (∀ (name : String) (args : List (String × String)) (cfg' : ToolConfig),
      env.toolConfig name = some cfg' → cfg'.type ≠ some "llm_call_agent" →
      (add_uuid_if_needed env st name args).1 = args) ∧
    (∀ (name : String) (args : List (String × String)),
      dictHas args "task_input" = false →
      (add_uuid_if_needed env st name args).1 = args) := by
  have hhas : dictHas tc.arguments "task_input" = true := by
    simp [dictHas, ht]
  have hgd : dictGetD tc.arguments "task_input" "" = t := by
    simp [dictGetD, ht]
  have ha : add_uuid_if_needed env st tc.name tc.arguments
      = (dictSet tc.arguments "task_input"
          (t ++ (" [call-" ++ env.uuidHex st.uuidDraws ++ "]")),
         { st with uuidDraws := st.uuidDraws + 1 }) := by
    unfold add_uuid_if_needed
    simp [hcfg, hty, hlv, hhas, hgd]
  refine ⟨by rw [ha], ?_, ?_, ?_, ?_, ?_, ?_, ?_, ?_⟩
  · rw [ha]; exact dictGet_dictSet _ _ _
  · unfold tool_call_once; rw [ha]; rfl
  · unfold tool_call_once; rw [ha]; rfl
  · unfold tool_call_once
    rw [ha]
    simp [save_state, snapshot_of]
  · intro st₂ hne
    rw [ha, dictGet_dictSet]
    cases hc₂ : env.toolConfig tc.name with
    | none => exact absurd hc₂ (by rw [hcfg]; simp)
    | some cfg₂ =>
      have ha₂ : add_uuid_if_needed env st₂ tc.name tc.arguments
          = (dictSet tc.arguments "task_input"
              (t ++ (" [call-" ++ env.uuidHex st₂.uuidDraws ++ "]")),
             { st₂ with uuidDraws := st₂.uuidDraws + 1 }) := by
        unfold add_uuid_if_needed
        simp [hcfg, hty, hlv, hhas, hgd]
      rw [ha₂, dictGet_dictSet]
      intro he
      exact hne (uuid_suffix_injective t _ _ (Option.some_inj.mp he))
  · intro name args cfg' hc hl
    unfold add_uuid_if_needed
    simp [hc, hl]
  · intro name args cfg' hc hty'
    unfold add_uuid_if_needed
    simp [hc, hty']
  · intro name args hh
    unfold add_uuid_if_needed
    cases hc : env.toolConfig name with
    | none => rfl
    | some cfg' => simp [hh]

/-- `_compress_action_history_if_needed` touches only the render history. -/
theorem compress_step_only_render (env : ExecEnv) (st : ExecState) :
    (compress_step env st).action_history_fact = st.action_history_fact ∧
    (compress_step env st).pending_tools = st.pending_tools ∧
    (compress_step env st).latest_thinking = st.latest_thinking ∧
    (compress_step env st).first_thinking_done = st.first_thinking_done ∧
    (compress_step env st).tool_call_counter = st.tool_call_counter ∧
    (compress_step env st).max_tool_try = st.max_tool_try ∧
    (compress_step env st).llmCalls = st.llmCalls ∧
    (compress_step env st).thinkCalls = st.thinkCalls ∧
    (compress_step env st).toolExecCalls = st.toolExecCalls ∧
    (compress_step env st).uuidDraws = st.uuidDraws ∧
    (compress_step env st).saves = st.saves := by
  unfold compress_step
  refine ⟨?_, ?_, ?_, ?_, ?_, ?_, ?_, ?_, ?_, ?_, ?_⟩ <;>
    (split <;> (try rfl) <;> (dsimp only; split <;> rfl))

/-- `_add_uuid_if_needed` changes only the returned arguments and the uuid
draw counter. -/
theorem add_uuid_state (env : ExecEnv) (st : ExecState) (name : String)
    (args : List (String × String)) :
    (add_uuid_if_needed env st name args).2.action_history = st.action_history ∧
    (add_uuid_if_needed env st name args).2.action_history_fact
      = st.action_history_fact ∧
    (add_uuid_if_needed env st name args).2.pending_tools = st.pending_tools ∧
    (add_uuid_if_needed env st name args).2.max_tool_try = st.max_tool_try ∧
    (add_uuid_if_needed env st name args).2.tool_call_counter
      = st.tool_call_counter ∧
    (add_uuid_if_needed env st name args).2.toolExecCalls = st.toolExecCalls ∧
    (add_uuid_if_needed env st name args).2.saves = st.saves ∧
    (add_uuid_if_needed env st name args).2.llmCalls = st.llmCalls ∧
    (add_uuid_if_needed env st name args).2.thinkCalls = st.thinkCalls := by
  unfold add_uuid_if_needed
  refine ⟨?_, ?_, ?_, ?_, ?_, ?_, ?_, ?_, ?_⟩ <;>
    (cases env.toolConfig name <;> simp <;> split <;> rfl)

/-- The per-tool body never touches `max_tool_try`. -/
theorem tool_call_once_mtt (env : ExecEnv) (turn : Nat) (st : ExecState)
    (tc : ToolCall) :
    (tool_call_once env turn st tc).2.max_tool_try = st.max_tool_try := by
  unfold tool_call_once
  simpa using (add_uuid_state env st tc.name tc.arguments).2.2.2.1

/-- The tool-call loop never touches `max_tool_try`. -/
theorem exec_tool_calls_mtt (env : ExecEnv) (turn : Nat) :
    ∀ (l : List ToolCall) (st : ExecState),
      (exec_tool_calls env turn st l).state.max_tool_try = st.max_tool_try := by
  intro l
  induction l with
  | nil => intro st; rfl
  | cons tc rest ih =>
    intro st
    unfold exec_tool_calls
    by_cases hf : tc.name = "final_output"
    · simp only [hf, if_pos, if_true]
      exact tool_call_once_mtt env turn st tc
    · simp only [hf, if_false, ite_false, if_neg, reduceIte]
      rw [ih]
      exact tool_call_once_mtt env turn st tc

/-- The periodic re-plan never touches `max_tool_try`. -/
theorem post_tools_thinking_mtt (env : ExecEnv) (turn : Nat) (st : ExecState) :
    (post_tools_thinking env turn st).max_tool_try = st.max_tool_try := by
  unfold post_tools_thinking
  split <;> (try rfl) <;> (dsimp only; split <;> rfl)

/-- A no-tool LLM response with fewer than 5 consecutive misses so far:
bump the miss counter, append the synthetic record to the render history,
checkpoint, and retry (src/core/agent_executor.py:194-210). -/
theorem turn_step_no_tool_retry (env : ExecEnv) (turn : Nat) (st : ExecState)
    (hok : (env.llm st.llmCalls).status = "success")
    (hempty : (env.llm st.llmCalls).tool_calls = [])
    (hlt : st.max_tool_try < 5) :
    turn_step env turn st = TurnResult.next (save_state
      { compress_step env (save_state st turn) with
        llmCalls := st.llmCalls + 1
        max_tool_try := st.max_tool_try + 1
        action_history := (compress_step env (save_state st turn)).action_history
          ++ [no_tool_record (st.max_tool_try + 1)] } turn) := by
  have hllm : (compress_step env (save_state st turn)).llmCalls = st.llmCalls :=
    ((compress_step_only_render env (save_state st turn)).2.2.2.2.2.2.1).trans rfl
  have hmtt : (compress_step env (save_state st turn)).max_tool_try
      = st.max_tool_try :=
    ((compress_step_only_render env (save_state st turn)).2.2.2.2.2.1).trans rfl
  unfold turn_step
  dsimp only
  rw [hllm, hmtt, hok]
  simp [hempty, hlt]

/-- The 6th consecutive no-tool LLM response: trigger a Thinking re-plan and
fail the agent with an error result (src/core/agent_executor.py:211-227). -/
theorem turn_step_no_tool_fail (env : ExecEnv) (turn : Nat) (st : ExecState)
    (hok : (env.llm st.llmCalls).status = "success")
    (hempty : (env.llm st.llmCalls).tool_calls = [])
    (h5 : st.max_tool_try = 5) :
    turn_step env turn st = TurnResult.done
      [("status", "error"),
       ("output", if env.thinking st.thinkCalls ≠ "" then env.thinking st.thinkCalls
                  else "多次未调用工具"),
       ("error_information", "Agent拒绝调用工具")]
      { compress_step env (save_state st turn) with
        llmCalls := st.llmCalls + 1
        thinkCalls := st.thinkCalls + 1 } := by
  have hllm : (compress_step env (save_state st turn)).llmCalls = st.llmCalls :=
    ((compress_step_only_render env (save_state st turn)).2.2.2.2.2.2.1).trans rfl
  have hmtt : (compress_step env (save_state st turn)).max_tool_try
      = st.max_tool_try :=
    ((compress_step_only_render env (save_state st turn)).2.2.2.2.2.1).trans rfl
  have hthink : (compress_step env (save_state st turn)).thinkCalls
      = st.thinkCalls :=
    ((compress_step_only_render env (save_state st turn)).2.2.2.2.2.2.2.1).trans rfl
  unfold turn_step
  dsimp only
  rw [hllm, hmtt, hthink, hok, h5]
  simp [hempty]

/-- C4 — no-tool backoff: each no-tool LLM response (with fewer than 5
consecutive misses) appends a synthetic `_no_tool_call` error action to the
render history and retries, leaving the fact history untouched; any response
carrying a tool call resets the consecutive-miss counter to 0; the 6th
consecutive no-tool response triggers a Thinking call and terminates the
turn loop with an `Agent拒绝调用工具` error result, which `run_loop`
propagates as `run`'s return value. -/
theorem C4_no_tool_backoff (env : ExecEnv) (turn : Nat) (st : ExecState)
    (hok : (env.llm st.llmCalls).status = "success") :
    ((env.llm st.llmCalls).tool_calls = [] → st.max_tool_try < 5 →
      (turn_step env turn st).state.max_tool_try = st.max_tool_try + 1 ∧
      (turn_step env turn st).state.action_history
        = (compress_step env (save_state st turn)).action_history
            ++ [no_tool_record (st.max_tool_try + 1)] ∧
      (turn_step env turn st).state.action_history_fact = st.action_history_fact ∧
      (turn_step env turn st).state.llmCalls = st.llmCalls + 1 ∧
      (turn_step env turn st).state.thinkCalls = st.thinkCalls ∧
      turn_step env turn st = TurnResult.next (turn_step env turn st).state) ∧
    ((env.llm st.llmCalls).tool_calls ≠ [] →
      (turn_step env turn st).state.max_tool_try = 0) ∧
    ((env.llm st.llmCalls).tool_calls = [] → st.max_tool_try = 5 →
      turn_step env turn st = TurnResult.done
        [("status", "error"),
         ("output", if env.thinking st.thinkCalls ≠ "" then env.thinking st.thinkCalls
                    else "多次未调用工具"),
         ("error_information", "Agent拒绝调用工具")]
        (turn_step env turn st).state ∧
      (turn_step env turn st).state.thinkCalls = st.thinkCalls + 1) ∧
    (∀ (fuel : Nat) (r : List (String × String)) (s' : ExecState),
      turn_step env turn st = TurnResult.done r s' →
      run_loop env (fuel + 1) turn st = (r, s')) := by
  refine ⟨?_, ?_, ?_, ?_⟩
  · intro hempty hlt
    rw [turn_step_no_tool_retry env turn st hok hempty hlt]
    have hfact : (compress_step env (save_state st turn)).action_history_fact
        = st.action_history_fact :=
      ((compress_step_only_render env (save_state st turn)).1).trans rfl
    exact ⟨rfl, rfl, hfact, rfl, ((compress_step_only_render
      env (save_state st turn)).2.2.2.2.2.2.2.1).trans rfl, rfl⟩
  · intro hne
    have hllm : (compress_step env (save_state st turn)).llmCalls = st.llmCalls :=
      ((compress_step_only_render env (save_state st turn)).2.2.2.2.2.2.1).trans rfl
    unfold turn_step
    dsimp only
    rw [hllm, hok]
    simp only [ne_eq, not_true_eq_false, if_false, reduceIte, hne]
    cases hE : exec_tool_calls env turn
        { compress_step env (save_state st turn) with
          llmCalls := st.llmCalls + 1, max_tool_try := 0 }
        (env.llm st.llmCalls).tool_calls with
    | final r s =>
      have h := exec_tool_calls_mtt env turn (env.llm st.llmCalls).tool_calls
        { compress_step env (save_state st turn) with
          llmCalls := st.llmCalls + 1, max_tool_try := 0 }
      rw [hE] at h
      simpa [ToolLoopResult.state, TurnResult.state] using h
    | finished s =>
      have h := exec_tool_calls_mtt env turn (env.llm st.llmCalls).tool_calls
        { compress_step env (save_state st turn) with
          llmCalls := st.llmCalls + 1, max_tool_try := 0 }
      rw [hE] at h
      simp only [ToolLoopResult.state, TurnResult.state] at h ⊢
      rw [post_tools_thinking_mtt]
      simpa using h
  · intro hempty h5
    rw [turn_step_no_tool_fail env turn st hok hempty h5]
    exact ⟨rfl, rfl⟩
  · intro fuel r s' h
    unfold run_loop
    rw [h]

/-- Environment for the C4 witness: the 0th LLM call returns no tool call,
every later one returns an `echo` tool call; Thinking always fails (`""`). -/
def envMix : ExecEnv :=
  { llm := fun n =>
      if n = 0 then ⟨"success", "", [], ""⟩
      else ⟨"success", "", [⟨"c1", "echo", [("text", "hi")]⟩], ""⟩
    toolExec := fun _ _ _ =>
      [("status", "success"), ("output", "hi"), ("error_information", "")]
    thinking := fun _ => ""
    uuidHex := fun _ => "0123abcd"
    toolConfig := fun name =>
      if name = "echo" then some ⟨some "tool_call_agent", 0⟩ else none
    compress := fun h => h }

/-- Witness for C4: the retry branch, the counter reset, and the 6th-miss
terminal failure (propagated by `run_loop`), each at a concrete state. -/
theorem C4_no_tool_backoff_witness :
    (turn_step envMix 0 fresh_state).state.max_tool_try = 1 ∧
    (turn_step envMix 0 { fresh_state with llmCalls := 1 }).state.max_tool_try = 0 ∧
    turn_step envMix 0 { fresh_state with max_tool_try := 5 } = TurnResult.done
      [("status", "error"),
       ("output", if envMix.thinking fresh_state.thinkCalls ≠ ""
                  then envMix.thinking fresh_state.thinkCalls else "多次未调用工具"),
       ("error_information", "Agent拒绝调用工具")]
      (turn_step envMix 0 { fresh_state with max_tool_try := 5 }).state ∧
    run_loop envMix (4 + 1) 0 { fresh_state with max_tool_try := 5 } =
      ([("status", "error"),
        ("output", if envMix.thinking fresh_state.thinkCalls ≠ ""
                   then envMix.thinking fresh_state.thinkCalls else "多次未调用工具"),
        ("error_information", "Agent拒绝调用工具")],
       (turn_step envMix 0 { fresh_state with max_tool_try := 5 }).state) := by
  have h0 := C4_no_tool_backoff envMix 0 fresh_state (by rfl)
  have h1 := C4_no_tool_backoff envMix 0 { fresh_state with llmCalls := 1 } (by rfl)
  have h5 := C4_no_tool_backoff envMix 0 { fresh_state with max_tool_try := 5 }
    (by rfl)
  refine ⟨(h0.1 (by rfl) (by decide)).1, h1.2.1 (by decide),
    (h5.2.2.1 (by rfl) (by rfl)).1, ?_⟩
  exact h5.2.2.2 4 _ _ (h5.2.2.1 (by rfl) (by rfl)).1

/-- An already-recorded action, for states whose histories are non-empty. -/
def recPrev : ActionRecord :=
  ⟨"echo", [("text", "a")],
   [("status", "success"), ("output", "a"), ("error_information", "")]⟩

/-- A state about to make its 10th tool call, with a failing Thinking
oracle in `envC5` below. -/
def stC5 : ExecState :=
  { fresh_state with
    action_history := [recPrev]
    action_history_fact := [recPrev]
    latest_thinking := "old plan"
    tool_call_counter := 9 }

/-- Environment for the C5 counterexample: the LLM asks for one `echo` tool
call and the Thinking sub-service fails (returns `""`). -/
def envC5 : ExecEnv :=
  { llm := fun _ => ⟨"success", "", [⟨"c1", "echo", [("text", "b")]⟩], ""⟩
    toolExec := fun _ _ _ =>
      [("status", "success"), ("output", "b"), ("error_information", "")]
    thinking := fun _ => ""
    uuidHex := fun _ => "0123abcd"
    toolConfig := fun name =>
      if name = "echo" then some ⟨some "tool_call_agent", 0⟩ else none
    compress := fun h => h }

/-- C5 counterexample — the claim says that whenever
`tool_call_counter % THINKING_INTERVAL == 0` after a turn's tool calls, the
executor replaces `latest_thinking` with the Thinking result and resets the
render history to `[]`.  On the concrete turn that brings the counter to 10
while the Thinking call fails (returns `""`), the Thinking service *is*
invoked but `latest_thinking` is left unchanged and the render history is
not reset. -/
theorem C5_counterexample :
    (turn_step envC5 0 stC5).state.tool_call_counter = 10 ∧
    (turn_step envC5 0 stC5).state.tool_call_counter % thinking_interval = 0 ∧
    (turn_step envC5 0 stC5).state.thinkCalls = 1 ∧
    (turn_step envC5 0 stC5).state.action_history ≠ [] ∧
    (turn_step envC5 0 stC5).state.latest_thinking = "old plan" := by
  refine ⟨by rfl, by rfl, by rfl, by decide, by rfl⟩

/-- C5 (amended) — whenever `tool_call_counter % THINKING_INTERVAL == 0`
after the tool calls of a turn, the executor invokes the Thinking
sub-service; **when the Thinking result is non-empty**, it replaces
`latest_thinking` with it, checkpoints, and resets the render history to
the empty list, while a failed Thinking call (empty result) leaves
`latest_thinking` and the render history unchanged; the fact history is
untouched in either case. -/
theorem C5_periodic_replan (env : ExecEnv) (turn : Nat) (st : ExecState)
    (hmod : st.tool_call_counter % thinking_interval = 0) :
    (post_tools_thinking env turn st).thinkCalls = st.thinkCalls + 1 ∧
    (env.thinking st.thinkCalls ≠ "" →
      (post_tools_thinking env turn st).latest_thinking
          = env.thinking st.thinkCalls ∧
      (post_tools_thinking env turn st).action_history = []) ∧
    (env.thinking st.thinkCalls = "" →
      (post_tools_thinking env turn st).latest_thinking = st.latest_thinking ∧
      (post_tools_thinking env turn st).action_history = st.action_history) ∧
    (post_tools_thinking env turn st).action_history_fact
      = st.action_history_fact := by
  unfold post_tools_thinking
  rw [if_pos hmod]
  by_cases hth : env.thinking st.thinkCalls = ""
  · simp [hth]
  · simp [hth, save_state]

/-- Witness for the amended C5: counter at 10 and a successful Thinking
call replace the plan and clear the render history; the fact history
survives. -/
theorem C5_periodic_replan_witness :
    (post_tools_thinking envIdle 0
      { fresh_state with
        action_history := [recPrev]
        action_history_fact := [recPrev]
        tool_call_counter := 10 }).thinkCalls = 1 ∧
    (post_tools_thinking envIdle 0
      { fresh_state with
        action_history := [recPrev]
        action_history_fact := [recPrev]
        tool_call_counter := 10 }).latest_thinking = "plan" ∧
    (post_tools_thinking envIdle 0
      { fresh_state with
        action_history := [recPrev]
        action_history_fact := [recPrev]
        tool_call_counter := 10 }).action_history = [] ∧
    (post_tools_thinking envIdle 0
      { fresh_state with
        action_history := [recPrev]
        action_history_fact := [recPrev]
        tool_call_counter := 10 }).action_history_fact = [recPrev] := by
  have h := C5_periodic_replan envIdle 0
    { fresh_state with
      action_history := [recPrev]
      action_history_fact := [recPrev]
      tool_call_counter := 10 } (by rfl)
  exact ⟨h.1, (h.2.1 (by decide)).1, (h.2.1 (by decide)).2, h.2.2.2⟩

/-- Environment for the C7 witness: `sub_agent` is a level-1
`llm_call_agent`, and consecutive uuid draws differ. -/
def envUuid : ExecEnv :=
  { llm := fun _ => ⟨"success", "", [], ""⟩
    toolExec := fun _ _ _ =>
      [("status", "success"), ("output", ""), ("error_information", "")]
    thinking := fun _ => "plan"
    uuidHex := fun n => if n = 0 then "aaaa1111" else "bbbb2222"
    toolConfig := fun name =>
      if name = "sub_agent" then some ⟨some "llm_call_agent", 1⟩ else none
    compress := fun h => h }

/-- A sub-agent tool call with a `task_input` argument. -/
def tcSub : ToolCall := ⟨"call_9", "sub_agent", [("task_input", "analyze X")]⟩

/-- Witness for C7: the concrete augmentation and the distinctness of two
draws. -/
theorem C7_uuid_augmentation_witness :
    dictGet (add_uuid_if_needed envUuid fresh_state tcSub.name tcSub.arguments).1
        "task_input"
      = some ("analyze X" ++
          (" [call-" ++ envUuid.uuidHex fresh_state.uuidDraws ++ "]")) ∧
    dictGet (add_uuid_if_needed envUuid fresh_state tcSub.name tcSub.arguments).1
        "task_input"
      ≠ dictGet (add_uuid_if_needed envUuid { fresh_state with uuidDraws := 1 }
          tcSub.name tcSub.arguments).1 "task_input" := by
  have h := C7_uuid_augmentation envUuid fresh_state 0 tcSub
    ⟨some "llm_call_agent", 1⟩ "analyze X" (by rfl) (by rfl) (by decide) (by rfl)
  exact ⟨h.2.1, h.2.2.2.2.2.1 { fresh_state with uuidDraws := 1 } (by decide)⟩

/-! ## C6: append-only fact history and persisted snapshots -/

@[simp] theorem compress_step_fact (env : ExecEnv) (st : ExecState) :
    (compress_step env st).action_history_fact = st.action_history_fact :=
  (compress_step_only_render env st).1

@[simp] theorem compress_step_saves (env : ExecEnv) (st : ExecState) :
    (compress_step env st).saves = st.saves :=
  (compress_step_only_render env st).2.2.2.2.2.2.2.2.2.2

@[simp] theorem compress_step_llm (env : ExecEnv) (st : ExecState) :
    (compress_step env st).llmCalls = st.llmCalls :=
  (compress_step_only_render env st).2.2.2.2.2.2.1

@[simp] theorem compress_step_counter (env : ExecEnv) (st : ExecState) :
    (compress_step env st).tool_call_counter = st.tool_call_counter :=
  (compress_step_only_render env st).2.2.2.2.1

@[simp] theorem compress_step_mtt (env : ExecEnv) (st : ExecState) :
    (compress_step env st).max_tool_try = st.max_tool_try :=
  (compress_step_only_render env st).2.2.2.2.2.1

@[simp] theorem add_uuid_render (env : ExecEnv) (st : ExecState) (name : String)
    (args : List (String × String)) :
    (add_uuid_if_needed env st name args).2.action_history = st.action_history :=
  (add_uuid_state env st name args).1

@[simp] theorem add_uuid_fact (env : ExecEnv) (st : ExecState) (name : String)
    (args : List (String × String)) :
    (add_uuid_if_needed env st name args).2.action_history_fact
      = st.action_history_fact :=
  (add_uuid_state env st name args).2.1

@[simp] theorem add_uuid_pending (env : ExecEnv) (st : ExecState) (name : String)
    (args : List (String × String)) :
    (add_uuid_if_needed env st name args).2.pending_tools = st.pending_tools :=
  (add_uuid_state env st name args).2.2.1

@[simp] theorem add_uuid_saves (env : ExecEnv) (st : ExecState) (name : String)
    (args : List (String × String)) :
    (add_uuid_if_needed env st name args).2.saves = st.saves :=
  (add_uuid_state env st name args).2.2.2.2.2.2.1

/-- A persisted snapshot is well-formed with respect to a fact history
`fact`: its persisted `action_history_fact` field is the falsy-fallback of
its source fact history, and a non-empty source fact history is a prefix of
`fact`. -/
def snap_ok (fact : List ActionRecord) (s : SavedSnapshot) : Prop :=
  s.action_history_fact
      = (if s.srcFact = [] then s.action_history else s.srcFact) ∧
  (s.srcFact ≠ [] → s.srcFact <+: fact)

/-- All snapshots of a checkpoint trace are well-formed w.r.t. `fact`. -/
def saves_ok (fact : List ActionRecord) (saves : List SavedSnapshot) : Prop :=
  ∀ s ∈ saves, snap_ok fact s

theorem snap_ok_mono {f f' : List ActionRecord} {s : SavedSnapshot}
    (h : snap_ok f s) (hp : f <+: f') : snap_ok f' s :=
  ⟨h.1, fun hne => (h.2 hne).trans hp⟩

theorem saves_ok_mono {f f' : List ActionRecord} {l : List SavedSnapshot}
    (h : saves_ok f l) (hp : f <+: f') : saves_ok f' l :=
  fun s hs => snap_ok_mono (h s hs) hp

@[simp] theorem saves_ok_append {f : List ActionRecord}
    {xs ys : List SavedSnapshot} :
    saves_ok f (xs ++ ys) ↔ saves_ok f xs ∧ saves_ok f ys := by
  simp only [saves_ok, List.mem_append]
  exact ⟨fun h => ⟨fun s hs => h s (Or.inl hs), fun s hs => h s (Or.inr hs)⟩,
    fun h s hs => hs.elim (h.1 s) (h.2 s)⟩

@[simp] theorem saves_ok_cons {f : List ActionRecord} {s : SavedSnapshot}
    {ys : List SavedSnapshot} :
    saves_ok f (s :: ys) ↔ snap_ok f s ∧ saves_ok f ys := by
  simp [saves_ok]

@[simp] theorem saves_ok_nil {f : List ActionRecord} : saves_ok f [] := by
  simp [saves_ok]

theorem snap_ok_snapshot (st : ExecState) (turn : Nat) :
    snap_ok st.action_history_fact (snapshot_of st turn) :=
  ⟨rfl, fun _ => List.prefix_rfl⟩

/-- `save_state` preserves the snapshot invariant: the new snapshot is
well-formed by construction. -/
theorem saves_ok_save_state {st : ExecState} (turn : Nat)
    (h : saves_ok st.action_history_fact st.saves) :
    saves_ok (save_state st turn).action_history_fact
      (save_state st turn).saves := by
  rw [save_state_fact, save_state_saves]
  exact saves_ok_append.mpr ⟨h, by simp [snap_ok_snapshot st turn]⟩

/-- The per-tool body appends one record to the fact history and keeps the
snapshot invariant. -/
theorem tool_call_once_c6 (env : ExecEnv) (turn : Nat) (st : ExecState)
    (tc : ToolCall) :
    st.action_history_fact <+:
      (tool_call_once env turn st tc).2.action_history_fact ∧
    (saves_ok st.action_history_fact st.saves →
      saves_ok (tool_call_once env turn st tc).2.action_history_fact
        (tool_call_once env turn st tc).2.saves) := by
  constructor
  · simp [tool_call_once]
  · intro h
    simp only [tool_call_once, save_state_saves, save_state_fact]
    simp only [add_uuid_fact, add_uuid_saves, List.append_assoc, saves_ok_append,
      saves_ok_cons, saves_ok_nil, and_true]
    refine ⟨saves_ok_mono h (List.prefix_append _ _), ?_, ?_⟩
    · exact snap_ok_mono (snap_ok_snapshot _ turn) (by simp)
    · exact snap_ok_mono (snap_ok_snapshot _ turn) (by simp)

/-- The tool-call loop only extends the fact history and keeps the snapshot
invariant. -/
theorem exec_tool_calls_c6 (env : ExecEnv) (turn : Nat) :
    ∀ (l : List ToolCall) (st : ExecState),
      st.action_history_fact <+:
        (exec_tool_calls env turn st l).state.action_history_fact ∧
      (saves_ok st.action_history_fact st.saves →
        saves_ok (exec_tool_calls env turn st l).state.action_history_fact
          (exec_tool_calls env turn st l).state.saves) := by
  intro l
  induction l with
  | nil => exact fun st => ⟨List.prefix_rfl, fun h => h⟩
  | cons tc rest ih =>
    intro st
    unfold exec_tool_calls
    by_cases hf : tc.name = "final_output"
    · simp only [hf, if_pos, if_true, reduceIte]
      exact ⟨(tool_call_once_c6 env turn st tc).1,
        (tool_call_once_c6 env turn st tc).2⟩
    · simp only [hf, if_false, ite_false, if_neg, reduceIte]
      refine ⟨(tool_call_once_c6 env turn st tc).1.trans
        (ih (tool_call_once env turn st tc).2).1, fun h => ?_⟩
      exact (ih (tool_call_once env turn st tc).2).2
        ((tool_call_once_c6 env turn st tc).2 h)

/-- The periodic re-plan leaves the fact history untouched and keeps the
snapshot invariant. -/
theorem post_tools_thinking_c6 (env : ExecEnv) (turn : Nat) (st : ExecState) :
    (post_tools_thinking env turn st).action_history_fact
        = st.action_history_fact ∧
    (saves_ok st.action_history_fact st.saves →
      saves_ok (post_tools_thinking env turn st).action_history_fact
        (post_tools_thinking env turn st).saves) := by
  unfold post_tools_thinking
  split
  · dsimp only
    split
    · refine ⟨rfl, fun h => ?_⟩
      simp only [save_state_fact, save_state_saves, saves_ok_append,
        saves_ok_cons, saves_ok_nil, and_true]
      exact ⟨h, snap_ok_snapshot _ turn⟩
    · exact ⟨rfl, fun h => h⟩
  · exact ⟨rfl, fun h => h⟩

/-- The tool-call branch of one turn (inner `match` of `turn_step`): the
entering state's fact history is a prefix of the outcome's, and the snapshot
invariant is kept. -/
theorem turn_step_tools_c6 (env : ExecEnv) (turn : Nat) (stX : ExecState)
    (l : List ToolCall) :
    stX.action_history_fact <+:
      (match exec_tool_calls env turn stX l with
       | ToolLoopResult.final r s => TurnResult.done r s
       | ToolLoopResult.finished s =>
           TurnResult.next (post_tools_thinking env turn s)).state.action_history_fact ∧
    (saves_ok stX.action_history_fact stX.saves →
      saves_ok
        (match exec_tool_calls env turn stX l with
         | ToolLoopResult.final r s => TurnResult.done r s
         | ToolLoopResult.finished s =>
             TurnResult.next (post_tools_thinking env turn s)).state.action_history_fact
        (match exec_tool_calls env turn stX l with
         | ToolLoopResult.final r s => TurnResult.done r s
         | ToolLoopResult.finished s =>
             TurnResult.next (post_tools_thinking env turn s)).state.saves) := by
  have h := exec_tool_calls_c6 env turn l stX
  cases hE : exec_tool_calls env turn stX l with
  | final r s =>
    rw [hE] at h
    exact ⟨h.1, h.2⟩
  | finished s =>
    rw [hE] at h
    dsimp only [ToolLoopResult.state, TurnResult.state] at h ⊢
    refine ⟨h.1.trans ?_, fun hh => ?_⟩
    · rw [(post_tools_thinking_c6 env turn s).1]
    · exact (post_tools_thinking_c6 env turn s).2 (h.2 hh)

/-- One turn of the loop only extends the fact history and keeps the
snapshot invariant. -/
theorem turn_step_c6 (env : ExecEnv) (turn : Nat) (st : ExecState) :
    st.action_history_fact <+: (turn_step env turn st).state.action_history_fact ∧
    (saves_ok st.action_history_fact st.saves →
      saves_ok (turn_step env turn st).state.action_history_fact
        (turn_step env turn st).state.saves) := by
  have hsave : saves_ok st.action_history_fact st.saves →
      saves_ok (compress_step env (save_state st turn)).action_history_fact
        (compress_step env (save_state st turn)).saves := by
    intro h
    simp only [compress_step_fact, compress_step_saves]
    exact saves_ok_save_state turn h
  unfold turn_step
  dsimp only
  split
  · exact ⟨by simp [TurnResult.state],
      fun h => by simpa [TurnResult.state] using hsave h⟩
  · split
    · split
      · constructor
        · simp [TurnResult.state]
        · intro h
          simp only [TurnResult.state, save_state_fact, save_state_saves,
            compress_step_fact, compress_step_saves, List.append_assoc,
            saves_ok_append, saves_ok_cons, saves_ok_nil, and_true]
          refine ⟨h, ?_, ?_⟩
          · exact snap_ok_mono (snap_ok_snapshot _ turn) (by simp)
          · exact snap_ok_mono (snap_ok_snapshot _ turn) (by simp)
      · exact ⟨by simp [TurnResult.state],
          fun h => by simpa [TurnResult.state] using hsave h⟩
    · constructor
      · refine List.IsPrefix.trans ?_ (turn_step_tools_c6 env turn _ _).1
        simp
      · intro h
        refine (turn_step_tools_c6 env turn _ _).2 ?_
        simpa using hsave h

/-- The whole turn loop only extends the fact history and keeps the
snapshot invariant. -/
theorem run_loop_c6 (env : ExecEnv) :
    ∀ (fuel turn : Nat) (st : ExecState),
      st.action_history_fact <+: (run_loop env fuel turn st).2.action_history_fact ∧
      (saves_ok st.action_history_fact st.saves →
        saves_ok (run_loop env fuel turn st).2.action_history_fact
          (run_loop env fuel turn st).2.saves) := by
  intro fuel
  induction fuel with
  | zero => exact fun turn st => ⟨List.prefix_rfl, fun h => h⟩
  | succ f ih =>
    intro turn st
    unfold run_loop
    cases hT : turn_step env turn st with
    | done r s =>
      have h := turn_step_c6 env turn st
      rw [hT] at h
      exact ⟨h.1, h.2⟩
    | next s =>
      have h := turn_step_c6 env turn st
      rw [hT] at h
      dsimp only [TurnResult.state] at h
      exact ⟨h.1.trans (ih (turn + 1) s).1, fun hh => (ih (turn + 1) s).2 (h.2 hh)⟩

/-- Pending-tool recovery only appends to the fact history, writes no
checkpoint, and keeps the snapshot invariant. -/
theorem recover_c6 (env : ExecEnv) :
    ∀ (l : List PendingTool) (st : ExecState),
      st.action_history_fact <+:
        (recover_pending_tools env st l).2.action_history_fact ∧
      (recover_pending_tools env st l).2.saves = st.saves ∧
      (saves_ok st.action_history_fact st.saves →
        saves_ok (recover_pending_tools env st l).2.action_history_fact
          (recover_pending_tools env st l).2.saves) := by
  intro l
  induction l with
  | nil => exact fun st => ⟨List.prefix_rfl, rfl, fun h => h⟩
  | cons pt rest ih =>
    intro st
    unfold recover_pending_tools
    dsimp only
    split
    · exact ⟨by simp, rfl, fun h => by
        simpa using saves_ok_mono h (List.prefix_append _ _)⟩
    · refine ⟨List.IsPrefix.trans (by simp) (ih _).1, (ih _).2.1.trans rfl,
        fun h => (ih _).2.2 ?_⟩
      simpa using saves_ok_mono h (List.prefix_append _ _)

/-- The initial-planning block leaves the fact history untouched and keeps
the snapshot invariant. -/
theorem initial_thinking_c6 (env : ExecEnv) (st : ExecState) :
    (initial_thinking env st).action_history_fact = st.action_history_fact ∧
    (saves_ok st.action_history_fact st.saves →
      saves_ok (initial_thinking env st).action_history_fact
        (initial_thinking env st).saves) := by
  unfold initial_thinking
  split
  · dsimp only
    split
    · refine ⟨rfl, fun h => ?_⟩
      simp only [save_state_fact, save_state_saves, saves_ok_append,
        saves_ok_cons, saves_ok_nil, and_true]
      exact ⟨h, snap_ok_snapshot _ 0⟩
    · exact ⟨rfl, fun h => h⟩
  · exact ⟨rfl, fun h => h⟩

/-- Every checkpoint a `run` invocation writes satisfies the snapshot
invariant with respect to the run's final fact history. -/
theorem run_c6 (env : ExecEnv) (loaded : Option LoadedActions) :
    saves_ok (run env loaded).2.action_history_fact (run env loaded).2.saves := by
  cases loaded with
  | none =>
    unfold run
    exact (run_loop_c6 env max_turns 0 (initial_thinking env fresh_state)).2
      ((initial_thinking_c6 env fresh_state).2 (by simp [fresh_state, saves_ok]))
  | some data =>
    unfold run
    cases hF : data.action_history_fact.find? (fun a => a.tool_name = "final_output") with
    | some action =>
      simp only [hF]
      simp [saves_ok, state_from_loaded]
    | none =>
      simp only [hF]
      split
      · refine (run_loop_c6 env _ _ _).2 ?_
        refine (recover_c6 env data.pending_tools (state_from_loaded data)).2.2 ?_
        simp [state_from_loaded, saves_ok]
      · exact (run_loop_c6 env _ _ _).2 (by simp [state_from_loaded, saves_ok])

/-- C6 (amended) — the **in-memory** fact history is append-only across all
operations of a run: executing the tool calls of a turn, recovering pending
tools, compressing the render history, the periodic re-plan reset, and a
whole turn each leave it unchanged or append records at its end.  Every
persisted snapshot records, in its `action_history_fact` field, the
in-memory fact history at save time **unless that history is empty**, in
which case `save_actions`' falsy fallback persists the render history in its
place; every snapshot whose in-memory fact history was non-empty persists it
verbatim, and those persisted fact fields are prefixes of the run's final
fact history and hence pairwise prefix-comparable.  (Snapshots taken while
the fact history was empty but the render history was not — e.g. after a
`_no_tool_call` record — need not be prefixes of later snapshots; see the
counterexample.) -/
theorem C6_fact_history_append_only :
    (∀ (env : ExecEnv) (st : ExecState) (l : List PendingTool),
      st.action_history_fact <+:
        (recover_pending_tools env st l).2.action_history_fact) ∧
    (∀ (env : ExecEnv) (turn : Nat) (st : ExecState) (l : List ToolCall),
      st.action_history_fact <+:
        (exec_tool_calls env turn st l).state.action_history_fact) ∧
    (∀ (env : ExecEnv) (st : ExecState),
      (compress_step env st).action_history_fact = st.action_history_fact) ∧
    (∀ (env : ExecEnv) (turn : Nat) (st : ExecState),
      (post_tools_thinking env turn st).action_history_fact
        = st.action_history_fact) ∧
    (∀ (env : ExecEnv) (turn : Nat) (st : ExecState),
      st.action_history_fact <+:
        (turn_step env turn st).state.action_history_fact) ∧
    (∀ (env : ExecEnv) (loaded : Option LoadedActions),
      ∀ s ∈ (run env loaded).2.saves,
        s.action_history_fact
            = (if s.srcFact = [] then s.action_history else s.srcFact) ∧
        (s.srcFact ≠ [] →
          s.srcFact <+: (run env loaded).2.action_history_fact ∧
          s.action_history_fact = s.srcFact)) ∧
    (∀ (env : ExecEnv) (loaded : Option LoadedActions),
      ∀ s ∈ (run env loaded).2.saves, ∀ t ∈ (run env loaded).2.saves,
        s.srcFact ≠ [] → t.srcFact ≠ [] →
        s.action_history_fact <+: t.action_history_fact ∨
          t.action_history_fact <+: s.action_history_fact) := by
  have hsnap : ∀ (env : ExecEnv) (loaded : Option LoadedActions),
      ∀ s ∈ (run env loaded).2.saves,
        s.action_history_fact
            = (if s.srcFact = [] then s.action_history else s.srcFact) ∧
        (s.srcFact ≠ [] →
          s.srcFact <+: (run env loaded).2.action_history_fact ∧
          s.action_history_fact = s.srcFact) := by
    intro env loaded s hs
    have h := run_c6 env loaded s hs
    refine ⟨h.1, fun hne => ⟨h.2 hne, ?_⟩⟩
    rw [h.1, if_neg hne]
  refine ⟨fun env st l => (recover_c6 env l st).1,
    fun env turn st l => (exec_tool_calls_c6 env turn l st).1,
    fun env st => compress_step_fact env st,
    fun env turn st => (post_tools_thinking_c6 env turn st).1,
    fun env turn st => (turn_step_c6 env turn st).1,
    hsnap, ?_⟩
  intro env loaded s hs t ht hsne htne
  have h1 := (hsnap env loaded s hs).2 hsne
  have h2 := (hsnap env loaded t ht).2 htne
  rw [h1.2, h2.2]
  rcases Nat.le_total s.srcFact.length t.srcFact.length with hle | hle
  · exact Or.inl (List.prefix_of_prefix_length_le h1.1 h2.1 hle)
  · exact Or.inr (List.prefix_of_prefix_length_le h2.1 h1.1 hle)

/-- The echo action record produced in the C6 counterexample run. -/
def echoRec : ActionRecord :=
  ⟨"echo", [("text", "hi")],
   [("status", "success"), ("output", "hi"), ("error_information", "")]⟩

/-- Environment for the C6 counterexample: the first LLM call returns no
tool call, the second an `echo` call, every later one `final_output`. -/
def envC6 : ExecEnv :=
  { llm := fun n =>
      if n = 0 then ⟨"success", "", [], ""⟩
      else if n = 1 then ⟨"success", "", [⟨"c1", "echo", [("text", "hi")]⟩], ""⟩
      else ⟨"success", "", [⟨"c2", "final_output", [("output", "done")]⟩], ""⟩
    toolExec := fun _ name _ =>
      if name = "echo" then
        [("status", "success"), ("output", "hi"), ("error_information", "")]
      else [("status", "success"), ("output", "done"), ("error_information", "")]
    thinking := fun _ => "plan"
    uuidHex := fun _ => "0123abcd"
    toolConfig := fun name =>
      if name = "echo" then some ⟨some "tool_call_agent", 0⟩
      else if name = "final_output" then some ⟨some "final_output", 0⟩
      else none
    compress := fun h => h }

/-- C6 counterexample — the claim concludes that every persisted snapshot of
an agent's fact history is a prefix of every later snapshot.  In the
concrete fresh run under `envC6`, the checkpoint written after the first
(no-tool) turn persists `[no_tool_record 1]` in its `action_history_fact`
field — the falsy fallback of `save_actions` substitutes the render history
(which holds the synthetic `_no_tool_call` record) for the still-empty fact
history — while the checkpoint written after the `echo` call persists
`[echoRec]`, and the former is not a prefix of the latter. -/
theorem C6_counterexample :
    ((run envC6 none).2.saves.get? 2).map (fun s => s.action_history_fact)
        = some [no_tool_record 1] ∧
    ((run envC6 none).2.saves.get? 5).map (fun s => s.action_history_fact)
        = some [echoRec] ∧
    ¬ ([no_tool_record 1] <+: [echoRec]) := by
  refine ⟨by rfl, by rfl, by decide⟩

/-- Witness for the amended C6 at the concrete `envC6` run: a turn step
extends the fact history, and the 6th snapshot (written with a non-empty
fact history) persists a prefix of the final fact history. -/
theorem C6_fact_history_append_only_witness :
    fresh_state.action_history_fact <+:
      (turn_step envC6 0 fresh_state).state.action_history_fact ∧
    ((run envC6 none).2.saves.get ⟨5, by decide⟩).srcFact <+:
      (run envC6 none).2.action_history_fact := by
  refine ⟨C6_fact_history_append_only.2.2.2.2.1 envC6 0 fresh_state, ?_⟩
  exact ((C6_fact_history_append_only.2.2.2.2.2.1 envC6 none
    ((run envC6 none).2.saves.get ⟨5, by decide⟩)
    (List.get_mem _ _ _)).2 (by decide)).1

end InfiAgent
